import Mathlib

/-
Shallow embedding of the window tiler component (src/components/index.tsx).

Modelling conventions:
- Ids are natural numbers.  The source uses strings; the root cell id
  (the string root in the source) is modelled as 0, and generateId
  (a random fresh string in the source) is modelled by a fresh-id counter
  threaded through the state, allocating 1, 2, 3, ...
- Pixel coordinates are exact rationals; the source uses JS numbers and
  divides widths and heights by 2.
- The ambient globals window.innerWidth and window.innerHeight are the
  viewportW and viewportH fields of the state.
- The random color and random position of a new window, and the random
  position chosen by moveWindowOut, are data of the triggering event.
- React state updates inside one handler are applied in program order,
  matching the batched semantics of the source.
-/

namespace WindowTiler

/-- Snap edges.  The source type SnapPosition also admits null; whenever the
source value can be null we use Option SnapPosition. -/
inductive SnapPosition where
  | left
  | right
  | top
  | bottom
deriving DecidableEq, Repr

/-- A node of the region arena, mirroring the GridCell interface. -/
structure GridCell where
  id : Nat
  x : ℚ
  y : ℚ
  width : ℚ
  height : ℚ
  windowId : Option Nat := none
  children : Option (List Nat) := none
  parentId : Option Nat := none
deriving DecidableEq, Repr

/-- A window entity, mirroring the WindowData interface. -/
structure WindowData where
  id : Nat
  color : Nat
  position : ℚ × ℚ
  size : ℚ × ℚ
  snapped : Option SnapPosition := none
  parentId : Option Nat := none
deriving DecidableEq, Repr

def WINDOW_WIDTH : ℚ := 300

def WINDOW_HEIGHT : ℚ := 200

def SNAP_THRESHOLD : ℚ := 30

/-- The id of the root cell (the string root in the source). -/
def rootId : Nat := 0

/-- Source splitGridCell.  The two calls to generateId are modelled by the
fresh-id counter n: the first generated id is n, the second n + 1, and the
returned counter is n + 2.  When no cell has the requested id the arena and
the counter are returned unchanged. -/
def splitGridCell (gridCells : List GridCell) (n : Nat) (cellId : Nat)
    (snapPosition : SnapPosition) (windowId : Nat) : List GridCell × Nat :=
  match gridCells.find? (fun c => c.id == cellId) with
  | none => (gridCells, n)
  | some cell =>
    let existingWindowId := cell.windowId
    let newCells : List GridCell :=
      match snapPosition with
      | .left | .right =>
        let leftCell : GridCell :=
          { id := n, x := cell.x, y := cell.y, width := cell.width / 2,
            height := cell.height,
            windowId := if snapPosition = .left then some windowId else existingWindowId,
            parentId := some cell.id }
        let rightCell : GridCell :=
          { id := n + 1, x := cell.x + cell.width / 2, y := cell.y,
            width := cell.width / 2, height := cell.height,
            windowId := if snapPosition = .right then some windowId else existingWindowId,
            parentId := some cell.id }
        [leftCell, rightCell]
      | .top | .bottom =>
        let topCell : GridCell :=
          { id := n, x := cell.x, y := cell.y, width := cell.width,
            height := cell.height / 2,
            windowId := if snapPosition = .top then some windowId else existingWindowId,
            parentId := some cell.id }
        let bottomCell : GridCell :=
          { id := n + 1, x := cell.x, y := cell.y + cell.height / 2,
            width := cell.width, height := cell.height / 2,
            windowId := if snapPosition = .bottom then some windowId else existingWindowId,
            parentId := some cell.id }
        [topCell, bottomCell]
    let updatedParent : GridCell :=
      { cell with windowId := none, children := some (newCells.map (fun c => c.id)) }
    (gridCells.map (fun c => if c.id == cellId then updatedParent else c) ++ newCells,
      n + 2)

/-- Source mergeGridCells. -/
def mergeGridCells (gridCells : List GridCell) (cellId : Nat) : List GridCell :=
  match gridCells.find? (fun c => c.id == cellId) with
  | none => gridCells
  | some cell =>
    match cell.parentId with
    | none => gridCells
    | some pid =>
      match gridCells.find? (fun c => c.id == pid) with
      | none => gridCells
      | some parent =>
        match gridCells.find? (fun c => c.parentId == some pid && !(c.id == cellId)) with
        | none => gridCells
        | some sibling =>
          let updatedParent : GridCell :=
            { parent with
              x := min parent.x sibling.x,
              y := min parent.y sibling.y,
              width := max (parent.x + parent.width) (sibling.x + sibling.width)
                - min parent.x sibling.x,
              height := max (parent.y + parent.height) (sibling.y + sibling.height)
                - min parent.y sibling.y,
              windowId := sibling.windowId,
              children := none }
          (gridCells.filter (fun c => !(c.id == cellId) && !(c.id == sibling.id))).map
            (fun c => if c.id == pid then updatedParent else c)

/-- Recursive descent of findGridCell, with explicit fuel standing for the
recursion depth (the source recursion terminates because reachable arenas are
finite trees; the fuel is always instantiated with the arena size plus one). -/
def findInCell (gridCells : List GridCell) (px py : ℚ) :
    Nat → GridCell → Option GridCell
  | 0, _ => none
  | Nat.succ fuel, cell =>
    if px ≥ cell.x ∧ px < cell.x + cell.width ∧ py ≥ cell.y ∧ py < cell.y + cell.height then
      match cell.children with
      | some childIds =>
        if childIds.isEmpty then some cell
        else
          match childIds.findSome? (fun cid =>
              (gridCells.find? (fun c => c.id == cid)).bind
                (fun child => findInCell gridCells px py fuel child)) with
          | some result => some result
          | none => some cell
      | none => some cell
    else none

/-- Source findGridCell: locate the deepest cell containing the point,
starting from the root. -/
def findGridCell (gridCells : List GridCell) (px py : ℚ) : Option GridCell :=
  match gridCells.find? (fun c => c.id == rootId) with
  | none => none
  | some root => findInCell gridCells px py (gridCells.length + 1) root

/-- The screen edge part of the indicator chain in onDrag: the four tests
against the viewport margins, using the constants WINDOW_WIDTH and
WINDOW_HEIGHT rather than the actual window size. -/
def screenEdgeIndicator (allowScreenEdgeSnap : Bool) (newX newY vw vh : ℚ) :
    Option SnapPosition :=
  if allowScreenEdgeSnap ∧ newX < SNAP_THRESHOLD then some .left
  else if allowScreenEdgeSnap ∧ newX + WINDOW_WIDTH > vw - SNAP_THRESHOLD then some .right
  else if allowScreenEdgeSnap ∧ newY < SNAP_THRESHOLD then some .top
  else if allowScreenEdgeSnap ∧ newY + WINDOW_HEIGHT > vh - SNAP_THRESHOLD then some .bottom
  else none

/-- The in-cell part of the indicator chain in onDrag: threshold tests in
cell-local coordinates, with all four edges for the root cell and an
aspect-ratio restriction for other cells. -/
def cellEdgeIndicator (t : GridCell) (ex ey : ℚ) : Option SnapPosition :=
  let relativeX := ex - t.x
  let relativeY := ey - t.y
  if t.id == rootId then
    if relativeX < SNAP_THRESHOLD then some .left
    else if relativeX > t.width - SNAP_THRESHOLD then some .right
    else if relativeY < SNAP_THRESHOLD then some .top
    else if relativeY > t.height - SNAP_THRESHOLD then some .bottom
    else none
  else if t.width > t.height then
    if relativeX < SNAP_THRESHOLD then some .left
    else if relativeX > t.width - SNAP_THRESHOLD then some .right
    else none
  else if t.height > t.width then
    if relativeY < SNAP_THRESHOLD then some .top
    else if relativeY > t.height - SNAP_THRESHOLD then some .bottom
    else none
  else
    if relativeX < SNAP_THRESHOLD then some .left
    else if relativeX > t.width - SNAP_THRESHOLD then some .right
    else if relativeY < SNAP_THRESHOLD then some .top
    else if relativeY > t.height - SNAP_THRESHOLD then some .bottom
    else none

/-- The cursorInParentBounds test of onDrag and onDragEnd: true when there is
no parent cell, otherwise a closed-bounds containment test of the pointer. -/
def cursorInParentBounds (parentCell : Option GridCell) (ex ey : ℚ) : Bool :=
  match parentCell with
  | none => true
  | some pc => decide (ex ≥ pc.x ∧ ex ≤ pc.x + pc.width ∧ ey ≥ pc.y ∧ ey ≤ pc.y + pc.height)

/-- The whole interactive state: the two React states, the two refs and the
ambient viewport, plus the fresh-id counter standing for generateId. -/
structure State where
  windows : List WindowData
  gridCells : List GridCell
  draggingId : Option Nat := none
  dragOffset : ℚ × ℚ := (0, 0)
  snapIndicator : Option SnapPosition := none
  nextId : Nat
  viewportW : ℚ
  viewportH : ℚ
deriving DecidableEq, Repr

/-- The candidate position computation of onDrag, including the clamping
step: the clamp cell is the parent cell when it resolves, otherwise the cell
currently occupied by the dragged window, otherwise no clamping happens. -/
def dragNewPos (gridCells : List GridCell) (dragWin : Option WindowData)
    (draggingId : Nat) (offx offy ex ey : ℚ) : ℚ × ℚ :=
  let currentCell := gridCells.find? (fun c => c.windowId == some draggingId)
  let parentCell := (dragWin.bind (fun w => w.parentId)).bind
    (fun pid => gridCells.find? (fun c => c.id == pid))
  let newX := ex - offx
  let newY := ey - offy
  match parentCell.orElse (fun _ => currentCell) with
  | none => (newX, newY)
  | some c =>
    let winW := match dragWin with | some w => w.size.1 | none => WINDOW_WIDTH
    let winH := match dragWin with | some w => w.size.2 | none => WINDOW_HEIGHT
    let maxX := c.x + c.width - winW
    let maxY := c.y + c.height - winH
    (min (max newX c.x) (max c.x maxX), min (max newY c.y) (max c.y maxY))

/-- Source onDrag (the mousemove handler): clamped position feedback plus the
snap indicator chain.  The dragPos ref is only read by the renderer and is
not modelled. -/
def onDrag (s : State) (ex ey : ℚ) : State :=
  match s.draggingId with
  | none => s
  | some draggingId =>
    let dragWin := s.windows.find? (fun w => w.id == draggingId)
    let parentCell := (dragWin.bind (fun w => w.parentId)).bind
      (fun pid => s.gridCells.find? (fun c => c.id == pid))
    let np := dragNewPos s.gridCells dragWin draggingId s.dragOffset.1 s.dragOffset.2 ex ey
    let allowScreenEdgeSnap := (dragWin.bind (fun w => w.parentId)).isNone
    let indicator : Option SnapPosition :=
      match screenEdgeIndicator allowScreenEdgeSnap np.1 np.2 s.viewportW s.viewportH with
      | some i => some i
      | none =>
        match findGridCell s.gridCells ex ey with
        | none => none
        | some targetCell =>
          if cursorInParentBounds parentCell ex ey then cellEdgeIndicator targetCell ex ey
          else none
    { s with
      snapIndicator := indicator,
      windows := s.windows.map (fun w =>
               if w.id == draggingId then { w with position := np, snapped := none } else w) }

/-- The screen edge commit test of onDragEnd, again using the default size
constants rather than the actual window size. -/
def isScreenEdgeSnapCandidate (newX newY vw vh : ℚ) : Bool :=
  decide (newX < SNAP_THRESHOLD ∨ newX + WINDOW_WIDTH > vw - SNAP_THRESHOLD ∨
    newY < SNAP_THRESHOLD ∨ newY + WINDOW_HEIGHT > vh - SNAP_THRESHOLD)

/-- The guard on line 305 of the source: screen edge snapping is disabled for
windows that have a parent cell. -/
def dragEndIsScreenEdgeSnap (win : WindowData) (newX newY vw vh : ℚ) : Bool :=
  if win.parentId.isSome then false else isScreenEdgeSnapCandidate newX newY vw vh

/-- Source onDragEnd (the mouseup handler): commits either a screen edge dock
or a tree split, then leaves the dragging state. -/
def onDragEnd (s : State) (ex ey : ℚ) : State :=
  match s.draggingId with
  | none => s
  | some draggingId =>
    match s.windows.find? (fun w => w.id == draggingId) with
    | none => s
    | some win =>
      let s1 : State :=
        match s.snapIndicator with
        | none => s
        | some ind =>
          let newX := ex - s.dragOffset.1
          let newY := ey - s.dragOffset.2
          if dragEndIsScreenEdgeSnap win newX newY s.viewportW s.viewportH then
            let newPosSize : (ℚ × ℚ) × (ℚ × ℚ) :=
              match ind with
              | .left => ((0, 0), (s.viewportW / 2, s.viewportH))
              | .right => ((s.viewportW / 2, 0), (s.viewportW / 2, s.viewportH))
              | .top => ((0, 0), (s.viewportW, s.viewportH / 2))
              | .bottom => ((0, s.viewportH / 2), (s.viewportW, s.viewportH / 2))
            { s with windows := s.windows.map (fun w =>
                if w.id == draggingId then
                  { w with
                    position := newPosSize.1, size := newPosSize.2,
                    snapped := some ind, parentId := none }
                else w) }
          else
            let parentCell := win.parentId.bind
              (fun pid => s.gridCells.find? (fun c => c.id == pid))
            match findGridCell s.gridCells ex ey with
            | none => s
            | some targetCell =>
              if cursorInParentBounds parentCell ex ey then
                let res := splitGridCell s.gridCells s.nextId targetCell.id ind draggingId
                let s2 := { s with gridCells := res.1, nextId := res.2 }
                match res.1.find? (fun c => c.windowId == some draggingId) with
                | none => s2
                | some newCell =>
                  { s2 with windows := s.windows.map (fun w =>
                      if w.id == draggingId then
                        { w with
                          position := (newCell.x, newCell.y),
                          size := (newCell.width, newCell.height),
                          snapped := some ind, parentId := newCell.parentId }
                      else w) }
              else s
      { s1 with draggingId := none, snapIndicator := none }

/-- The re-homing step shared by closeWindow and moveWindowOut: the first
cell of the new arena holding a window other than the closed one has its
occupant moved to the cell rectangle with snapped and parentId cleared. -/
def rehomeWindows (windows : List WindowData) (closedId : Nat)
    (newGridCells : List GridCell) : List WindowData :=
  match newGridCells.find? (fun c => c.windowId.isSome && !(c.windowId == some closedId)) with
  | none => windows
  | some remainingCell =>
    windows.map (fun w =>
      if some w.id == remainingCell.windowId then
        { w with
          position := (remainingCell.x, remainingCell.y),
          size := (remainingCell.width, remainingCell.height),
          snapped := none, parentId := none }
      else w)

/-- Source closeWindow: merge the occupied cell if any, re-home, then remove
the window unconditionally. -/
def closeWindow (s : State) (id : Nat) : State :=
  let afterMerge : State :=
    match s.gridCells.find? (fun c => c.windowId == some id) with
    | none => s
    | some cell =>
      let newGridCells := mergeGridCells s.gridCells cell.id
      { s with
        gridCells := newGridCells,
        windows := rehomeWindows s.windows id newGridCells }
  { afterMerge with windows := afterMerge.windows.filter (fun w => !(w.id == id)) }

/-- Source moveWindowOut: a no-op unless the window exists and is snapped;
otherwise the same merge and re-home as closeWindow, then the window floats
again at a fresh position with the default size. -/
def moveWindowOut (s : State) (id : Nat) (newPos : ℚ × ℚ) : State :=
  match s.windows.find? (fun w => w.id == id) with
  | none => s
  | some win =>
    if win.snapped = none then s
    else
      let s1 : State :=
        match s.gridCells.find? (fun c => c.windowId == some id) with
        | none => s
        | some cell =>
          let newGridCells := mergeGridCells s.gridCells cell.id
          { s with
            gridCells := newGridCells,
            windows := rehomeWindows s.windows id newGridCells }
      { s1 with windows := s1.windows.map (fun w =>
          if w.id == id then
            { w with
              position := newPos, size := (WINDOW_WIDTH, WINDOW_HEIGHT),
              snapped := none, parentId := none }
          else w) }

/-- Source addWindow: the random color and position are event data. -/
def addWindow (s : State) (pos : ℚ × ℚ) (color : Nat) : State :=
  { s with
    windows := s.windows ++
      [{ id := s.nextId, color := color, position := pos,
         size := (WINDOW_WIDTH, WINDOW_HEIGHT), snapped := none, parentId := none }],
    nextId := s.nextId + 1 }

/-- Source onDragStart: ignored for an unknown window id. -/
def onDragStart (s : State) (ex ey : ℚ) (id : Nat) : State :=
  match s.windows.find? (fun w => w.id == id) with
  | none => s
  | some win =>
    { s with
      draggingId := some id,
      dragOffset := (ex - win.position.1, ey - win.position.2) }

/-- Source handleResize: only the root cell rectangle follows the viewport. -/
def handleResize (s : State) (w h : ℚ) : State :=
  { s with
    viewportW := w, viewportH := h,
    gridCells := s.gridCells.map (fun c =>
      if c.id == rootId then { c with width := w, height := h } else c) }

/-- The abstract event alphabet delivered by the host. -/
inductive Event where
  | createWindow (pos : ℚ × ℚ) (color : Nat)
  | pointerDown (ex ey : ℚ) (windowId : Nat)
  | pointerMove (ex ey : ℚ)
  | pointerUp (ex ey : ℚ)
  | viewportResize (w h : ℚ)
  | close (windowId : Nat)
  | moveOut (windowId : Nat) (newPos : ℚ × ℚ)
deriving Repr

/-- One synchronous event dispatch. -/
def step (s : State) : Event → State
  | .createWindow pos color => addWindow s pos color
  | .pointerDown ex ey id => onDragStart s ex ey id
  | .pointerMove ex ey => onDrag s ex ey
  | .pointerUp ex ey => onDragEnd s ex ey
  | .viewportResize w h => handleResize s w h
  | .close id => closeWindow s id
  | .moveOut id p => moveWindowOut s id p

/-- The initial state: one root cell covering the viewport, no windows. -/
def initState (vw vh : ℚ) : State :=
  { windows := [],
    gridCells := [{ id := rootId, x := 0, y := 0, width := vw, height := vh }],
    draggingId := none, dragOffset := (0, 0), snapIndicator := none,
    nextId := 1, viewportW := vw, viewportH := vh }

/-- Run an event list from the initial state. -/
def runEvents (vw vh : ℚ) (evs : List Event) : State :=
  evs.foldl step (initState vw vh)

/-- A cell acts as a leaf when it has no children (absent or empty list). -/
def isLeafCell (c : GridCell) : Bool := (c.children.getD []).isEmpty

/-- The occupant ids of the leaf cells, in arena order. -/
def leafOccupantIds (cells : List GridCell) : List Nat :=
  cells.filterMap (fun c => if isLeafCell c then c.windowId else none)

/-- Modelled from the spec: the screen edge commit test of onDragEnd but
with the actual window size in place of the default size constants, for
comparison with isScreenEdgeSnapCandidate. -/
def sizedScreenEdgeSnapCandidate (newX newY vw vh winW winH : ℚ) : Bool :=
  decide (newX < SNAP_THRESHOLD ∨ newX + winW > vw - SNAP_THRESHOLD ∨
    newY < SNAP_THRESHOLD ∨ newY + winH > vh - SNAP_THRESHOLD)

/-- Modelled from the spec: the screen edge indicator tests of onDrag but
with the actual window size in place of the default size constants, for
comparison with screenEdgeIndicator. -/
def sizedScreenEdgeIndicator (allowScreenEdgeSnap : Bool) (newX newY vw vh winW winH : ℚ) :
    Option SnapPosition :=
  if allowScreenEdgeSnap ∧ newX < SNAP_THRESHOLD then some .left
  else if allowScreenEdgeSnap ∧ newX + winW > vw - SNAP_THRESHOLD then some .right
  else if allowScreenEdgeSnap ∧ newY < SNAP_THRESHOLD then some .top
  else if allowScreenEdgeSnap ∧ newY + winH > vh - SNAP_THRESHOLD then some .bottom
  else none

/-- The id of the generated child cell that receives the new occupant in a
split: the first generated id for a left or top split, the second for a
right or bottom split. -/
def splitNewLeafId (edge : SnapPosition) (n : Nat) : Nat :=
  match edge with
  | .left => n
  | .right => n + 1
  | .top => n
  | .bottom => n + 1

/-- An event sequence from the initial state on a 1000 by 800 viewport:
window 1 is created, docked into the right half of the root by a drag, then
dragged again inside its parent region and dropped on the top edge of its
own leaf.  The final split writes window 1 into both generated children. -/
def dupEvents : List Event :=
  [.createWindow (400, 300) 0, .pointerDown 800 310 1, .pointerMove 990 400,
   .pointerUp 990 400, .pointerDown 600 100 1, .pointerMove 700 20, .pointerUp 700 20]

/-- An event sequence reaching a state where the viewport was shrunk after a
split, and the remaining window is then closed: the resulting merge rewrites
the root rectangle to the envelope of the stale children. -/
def events9 : List Event :=
  dupEvents.take 4 ++ [.viewportResize 400 300, .close 1]

/-- A concrete arena whose cell 0 is internal (it has children 1 and 2). -/
def cells8 : List GridCell :=
  [{ id := 0, x := 0, y := 0, width := 100, height := 100, children := some [1, 2] },
   { id := 1, x := 0, y := 0, width := 50, height := 100, parentId := some 0 },
   { id := 2, x := 50, y := 0, width := 50, height := 100, parentId := some 0 }]

/-- A concrete state with two docked windows: window 10 fills the left half
leaf (cell 1) and window 20 fills the top right quarter leaf (cell 3); the
sibling of cell 3 is the empty leaf cell 4. -/
def S4 : State :=
  { windows :=
      [{ id := 10, color := 0, position := (0, 0), size := (500, 800),
         snapped := some .left, parentId := some 0 },
       { id := 20, color := 0, position := (500, 0), size := (500, 400),
         snapped := some .top, parentId := some 2 }],
    gridCells :=
      [{ id := 0, x := 0, y := 0, width := 1000, height := 800, children := some [1, 2] },
       { id := 1, x := 0, y := 0, width := 500, height := 800, windowId := some 10,
         parentId := some 0 },
       { id := 2, x := 500, y := 0, width := 500, height := 800, children := some [3, 4],
         parentId := some 0 },
       { id := 3, x := 500, y := 0, width := 500, height := 400, windowId := some 20,
         parentId := some 2 },
       { id := 4, x := 500, y := 400, width := 500, height := 400, parentId := some 2 }],
    draggingId := none, dragOffset := (0, 0), snapIndicator := none,
    nextId := 5, viewportW := 1000, viewportH := 800 }

/-- A concrete state with a single free window being dragged: the window has
no parent cell and occupies no cell, so the source applies no clamping. -/
def S5 : State :=
  { windows :=
      [{ id := 1, color := 0, position := (300, 300), size := (300, 200) }],
    gridCells := [{ id := 0, x := 0, y := 0, width := 1000, height := 800 }],
    draggingId := some 1, dragOffset := (0, 0), snapIndicator := none,
    nextId := 2, viewportW := 1000, viewportH := 800 }

/-- A concrete state with a docked, snapped window 1 being dragged: it
occupies leaf cell 1 whose parent is the root. -/
def S6 : State :=
  { windows :=
      [{ id := 1, color := 0, position := (0, 0), size := (500, 800),
         snapped := some .left, parentId := some 0 }],
    gridCells :=
      [{ id := 0, x := 0, y := 0, width := 1000, height := 800, children := some [1, 2] },
       { id := 1, x := 0, y := 0, width := 500, height := 800, windowId := some 1,
         parentId := some 0 },
       { id := 2, x := 500, y := 0, width := 500, height := 800, parentId := some 0 }],
    draggingId := some 1, dragOffset := (0, 0), snapIndicator := none,
    nextId := 3, viewportW := 1000, viewportH := 800 }

/-- Auxiliary: find? over an append when the left part already finds a hit. -/
theorem find?_append_some {α : Type _} {l r : List α} {p : α → Bool} {a : α}
    (h : l.find? p = some a) : (l ++ r).find? p = some a := by
  induction l with
  | nil => simp at h
  | cons x xs ih =>
    rw [List.find?_cons] at h
    rw [List.cons_append, List.find?_cons]
    cases hx : p x with
    | true => simpa [hx] using h
    | false =>
      simp only [hx] at h ⊢
      exact ih h

/-- Auxiliary: find? over an append when the left part has no hit. -/
theorem find?_append_none {α : Type _} {l r : List α} {p : α → Bool}
    (h : l.find? p = none) : (l ++ r).find? p = r.find? p := by
  induction l with
  | nil => simp
  | cons x xs ih =>
    rw [List.find?_cons] at h
    rw [List.cons_append, List.find?_cons]
    cases hx : p x with
    | true => simp [hx] at h
    | false =>
      simp only [hx] at h ⊢
      exact ih h

/-- Auxiliary: find? over a map is none when the predicate fails on every image. -/
theorem find?_map_eq_none {α β : Type _} {l : List α} {f : α → β} {p : β → Bool}
    (h : ∀ c ∈ l, p (f c) = false) : (l.map f).find? p = none := by
  rw [List.find?_eq_none]
  intro b hb
  rcases List.mem_map.mp hb with ⟨a, ha, rfl⟩
  simp [h a ha]

/-- Auxiliary: replacing the cells of a given id in an arena and then looking
that id up yields the replacement, provided the lookup succeeded before and
the replacement keeps the id. -/
theorem find?_map_replace (l : List GridCell) (cid : Nat) (u : GridCell) (cell : GridCell)
    (hu : u.id = cid) (h : l.find? (fun c => c.id == cid) = some cell) :
    (l.map (fun c => if c.id == cid then u else c)).find? (fun c => c.id == cid) = some u := by
  induction l with
  | nil => simp at h
  | cons x xs ih =>
    rw [List.find?_cons] at h
    cases hx : (x.id == cid) with
    | true =>
      simp only [List.map_cons, hx, if_true]
      rw [List.find?_cons]
      simp [hu]
    | false =>
      simp only [hx] at h
      rw [List.map_cons, if_neg (by simp [hx]), List.find?_cons]
      simp only [hx]
      exact ih h

/-- Auxiliary: with pairwise distinct ids, any member sharing the id of the
found cell is that cell. -/
theorem eq_of_mem_id_nodup (l : List GridCell) (cid : Nat) (cell c : GridCell)
    (hnd : (l.map (fun c => c.id)).Nodup)
    (hf : l.find? (fun c => c.id == cid) = some cell)
    (hc : c ∈ l) (hcid : c.id = cid) : c = cell := by
  induction l with
  | nil => simp at hc
  | cons x xs ih =>
    simp only [List.map_cons, List.nodup_cons] at hnd
    rw [List.find?_cons] at hf
    cases hx : (x.id == cid) with
    | true =>
      simp only [hx] at hf
      have hxid : x.id = cid := by simpa using hx
      rcases List.mem_cons.mp hc with rfl | hmem
      · simpa using hf
      · exact absurd (by simpa [hcid, hxid] using List.mem_map_of_mem (fun c => c.id) hmem)
          (by simpa [hxid, hcid] using hnd.1)
    | false =>
      simp only [hx] at hf
      rcases List.mem_cons.mp hc with rfl | hmem
      · exact absurd (by simpa using hcid) (by simpa using hx)
      · exact ih hnd.2 hf hmem

/-- Auxiliary: a map that fixes every member is the identity. -/
theorem map_eq_self_of {α : Type _} (l : List α) (f : α → α)
    (h : ∀ a ∈ l, f a = a) : l.map f = l := by
  induction l with
  | nil => rfl
  | cons x xs ih =>
    rw [List.map_cons, h x (List.mem_cons_self x xs),
      ih (fun a ha => h a (List.mem_cons_of_mem x ha))]

/-- Auxiliary: the unfolded form of a left split at a found cell. -/
theorem splitGridCell_left_eq (cells : List GridCell) (n cellId wid : Nat)
    (cell : GridCell) (hfind : cells.find? (fun c => c.id == cellId) = some cell) :
    splitGridCell cells n cellId SnapPosition.left wid =
      (cells.map (fun c => if c.id == cellId then
          { cell with windowId := none, children := some [n, n + 1] } else c) ++
        [{ id := n, x := cell.x, y := cell.y, width := cell.width / 2,
           height := cell.height, windowId := some wid, parentId := some cell.id },
         { id := n + 1, x := cell.x + cell.width / 2, y := cell.y,
           width := cell.width / 2, height := cell.height, windowId := cell.windowId,
           parentId := some cell.id }], n + 2) := by
  simp [splitGridCell, hfind]

/-- Auxiliary: the unfolded form of a right split at a found cell. -/
theorem splitGridCell_right_eq (cells : List GridCell) (n cellId wid : Nat)
    (cell : GridCell) (hfind : cells.find? (fun c => c.id == cellId) = some cell) :
    splitGridCell cells n cellId SnapPosition.right wid =
      (cells.map (fun c => if c.id == cellId then
          { cell with windowId := none, children := some [n, n + 1] } else c) ++
        [{ id := n, x := cell.x, y := cell.y, width := cell.width / 2,
           height := cell.height, windowId := cell.windowId, parentId := some cell.id },
         { id := n + 1, x := cell.x + cell.width / 2, y := cell.y,
           width := cell.width / 2, height := cell.height, windowId := some wid,
           parentId := some cell.id }], n + 2) := by
  simp [splitGridCell, hfind]

/-- Auxiliary: the unfolded form of a top split at a found cell. -/
theorem splitGridCell_top_eq (cells : List GridCell) (n cellId wid : Nat)
    (cell : GridCell) (hfind : cells.find? (fun c => c.id == cellId) = some cell) :
    splitGridCell cells n cellId SnapPosition.top wid =
      (cells.map (fun c => if c.id == cellId then
          { cell with windowId := none, children := some [n, n + 1] } else c) ++
        [{ id := n, x := cell.x, y := cell.y, width := cell.width,
           height := cell.height / 2, windowId := some wid, parentId := some cell.id },
         { id := n + 1, x := cell.x, y := cell.y + cell.height / 2,
           width := cell.width, height := cell.height / 2, windowId := cell.windowId,
           parentId := some cell.id }], n + 2) := by
  simp [splitGridCell, hfind]

/-- Auxiliary: the unfolded form of a bottom split at a found cell. -/
theorem splitGridCell_bottom_eq (cells : List GridCell) (n cellId wid : Nat)
    (cell : GridCell) (hfind : cells.find? (fun c => c.id == cellId) = some cell) :
    splitGridCell cells n cellId SnapPosition.bottom wid =
      (cells.map (fun c => if c.id == cellId then
          { cell with windowId := none, children := some [n, n + 1] } else c) ++
        [{ id := n, x := cell.x, y := cell.y, width := cell.width,
           height := cell.height / 2, windowId := cell.windowId, parentId := some cell.id },
         { id := n + 1, x := cell.x, y := cell.y + cell.height / 2,
           width := cell.width, height := cell.height / 2, windowId := some wid,
           parentId := some cell.id }], n + 2) := by
  simp [splitGridCell, hfind]

/-- Auxiliary: merging the first generated child of a split against its
generated sibling restores the original arena, stated over the explicit
split image.  Here u is the internalised parent, A the first and B the
second generated child, and hupd says that the rectangle envelope
computation restores the original cell. -/
theorem mergeGridCells_split_aux1 (cells : List GridCell) (cellId n : Nat)
    (cell u A B : GridCell)
    (hnodup : (cells.map (fun c => c.id)).Nodup)
    (hfind : cells.find? (fun c => c.id == cellId) = some cell)
    (hfresh : ∀ c ∈ cells, c.id < n)
    (hnochild : ∀ c ∈ cells, c.parentId ≠ some cellId)
    (huid : u.id = cellId) (hupar : u.parentId = cell.parentId)
    (hA : A.id = n) (hB : B.id = n + 1)
    (hApar : A.parentId = some cellId) (hBpar : B.parentId = some cellId)
    (hupd : { u with
      x := min u.x B.x,
      y := min u.y B.y,
      width := max (u.x + u.width) (B.x + B.width) - min u.x B.x,
      height := max (u.y + u.height) (B.y + B.height) - min u.y B.y,
      windowId := B.windowId,
      children := none } = cell) :
    mergeGridCells
      (cells.map (fun c => if c.id == cellId then u else c) ++ [A, B]) n = cells := by
  have hcid : cell.id = cellId := by simpa using List.find?_some hfind
  have hmem : cell ∈ cells := List.mem_of_find?_eq_some hfind
  have happ_pos : ∀ c : GridCell, (c.id == cellId) = true →
      (if c.id == cellId then u else c) = u := fun c h => if_pos h
  have happ_neg : ∀ c : GridCell, (c.id == cellId) = false →
      (if c.id == cellId then u else c) = c := fun c h => if_neg (by simp [h])
  have hmap_id : ∀ c ∈ cells, (if c.id == cellId then u else c).id < n := by
    intro c hc
    by_cases h : (c.id == cellId) = true
    · rw [happ_pos c h, huid, ← hcid]
      exact hfresh cell hmem
    · rw [happ_neg c (by simpa using h)]
      exact hfresh c hc
  have hmap_par : ∀ c ∈ cells,
      ((if c.id == cellId then u else c).parentId == some cellId) = false := by
    intro c hc
    by_cases h : (c.id == cellId) = true
    · rw [happ_pos c h]
      exact beq_eq_false_iff_ne.mpr (by rw [hupar]; exact hnochild cell hmem)
    · rw [happ_neg c (by simpa using h)]
      exact beq_eq_false_iff_ne.mpr (hnochild c hc)
  have hmap_n : (cells.map (fun c => if c.id == cellId then u else c)).find?
      (fun c => c.id == n) = none := by
    apply find?_map_eq_none
    intro c hc
    exact beq_eq_false_iff_ne.mpr (Nat.ne_of_lt (hmap_id c hc))
  have e1 : ((cells.map (fun c => if c.id == cellId then u else c)) ++ [A, B]).find?
      (fun c => c.id == n) = some A := by
    rw [find?_append_none hmap_n, List.find?_cons]
    simp [hA]
  have e3 : ((cells.map (fun c => if c.id == cellId then u else c)) ++ [A, B]).find?
      (fun c => c.id == cellId) = some u :=
    find?_append_some (find?_map_replace cells cellId u cell huid hfind)
  have hmap_sib : (cells.map (fun c => if c.id == cellId then u else c)).find?
      (fun c => c.parentId == some cellId && !(c.id == n)) = none := by
    apply find?_map_eq_none
    intro c hc
    rw [hmap_par c hc]
    rfl
  have e4 : ((cells.map (fun c => if c.id == cellId then u else c)) ++ [A, B]).find?
      (fun c => c.parentId == some cellId && !(c.id == n)) = some B := by
    rw [find?_append_none hmap_sib, List.find?_cons]
    have hA' : (A.parentId == some cellId && !(A.id == n)) = false := by
      simp [hA, hApar]
    simp only [hA']
    rw [List.find?_cons]
    have hB' : (B.parentId == some cellId && !(B.id == n)) = true := by
      simp [hB, hBpar]
    simp [hB']
  simp only [mergeGridCells, e1, hApar, e3, e4]
  rw [hupd, List.filter_append]
  have hfAB : List.filter (fun c => !(c.id == n) && !(c.id == B.id)) [A, B] = [] := by
    simp [hA, hB]
  have hfmap : List.filter (fun c => !(c.id == n) && !(c.id == B.id))
      (cells.map (fun c => if c.id == cellId then u else c)) =
      cells.map (fun c => if c.id == cellId then u else c) := by
    rw [List.filter_eq_self]
    intro x hx
    rcases List.mem_map.mp hx with ⟨c, hc, rfl⟩
    have h1 := hmap_id c hc
    have h2 : (if c.id == cellId then u else c).id ≠ n := Nat.ne_of_lt h1
    have h3 : (if c.id == cellId then u else c).id ≠ B.id := by
      rw [hB]
      exact Nat.ne_of_lt (Nat.lt_succ_of_lt h1)
    rw [beq_eq_false_iff_ne.mpr h2, beq_eq_false_iff_ne.mpr h3]
    rfl
  rw [hfAB, hfmap, List.append_nil, List.map_map]
  apply map_eq_self_of
  intro c hc
  by_cases h : (c.id == cellId) = true
  · have hc_eq : c = cell := eq_of_mem_id_nodup cells cellId cell c hnodup hfind hc
      (by simpa using h)
    simp only [Function.comp_apply, happ_pos c h]
    rw [if_pos (by simp [huid]), hc_eq]
  · simp only [Function.comp_apply, happ_neg c (by simpa using h)]
    rw [if_neg (by simpa using h)]

/-- Auxiliary: merging the second generated child of a split against its
generated sibling restores the original arena, stated over the explicit
split image.  Here u is the internalised parent, A the first and B the
second generated child, and hupd says that the rectangle envelope
computation restores the original cell. -/
theorem mergeGridCells_split_aux2 (cells : List GridCell) (cellId n : Nat)
    (cell u A B : GridCell)
    (hnodup : (cells.map (fun c => c.id)).Nodup)
    (hfind : cells.find? (fun c => c.id == cellId) = some cell)
    (hfresh : ∀ c ∈ cells, c.id < n)
    (hnochild : ∀ c ∈ cells, c.parentId ≠ some cellId)
    (huid : u.id = cellId) (hupar : u.parentId = cell.parentId)
    (hA : A.id = n) (hB : B.id = n + 1)
    (hApar : A.parentId = some cellId) (hBpar : B.parentId = some cellId)
    (hupd : { u with
      x := min u.x A.x,
      y := min u.y A.y,
      width := max (u.x + u.width) (A.x + A.width) - min u.x A.x,
      height := max (u.y + u.height) (A.y + A.height) - min u.y A.y,
      windowId := A.windowId,
      children := none } = cell) :
    mergeGridCells
      (cells.map (fun c => if c.id == cellId then u else c) ++ [A, B]) (n + 1) = cells := by
  have hcid : cell.id = cellId := by simpa using List.find?_some hfind
  have hmem : cell ∈ cells := List.mem_of_find?_eq_some hfind
  have happ_pos : ∀ c : GridCell, (c.id == cellId) = true →
      (if c.id == cellId then u else c) = u := fun c h => if_pos h
  have happ_neg : ∀ c : GridCell, (c.id == cellId) = false →
      (if c.id == cellId then u else c) = c := fun c h => if_neg (by simp [h])
  have hmap_id : ∀ c ∈ cells, (if c.id == cellId then u else c).id < n := by
    intro c hc
    by_cases h : (c.id == cellId) = true
    · rw [happ_pos c h, huid, ← hcid]
      exact hfresh cell hmem
    · rw [happ_neg c (by simpa using h)]
      exact hfresh c hc
  have hmap_par : ∀ c ∈ cells,
      ((if c.id == cellId then u else c).parentId == some cellId) = false := by
    intro c hc
    by_cases h : (c.id == cellId) = true
    · rw [happ_pos c h]
      exact beq_eq_false_iff_ne.mpr (by rw [hupar]; exact hnochild cell hmem)
    · rw [happ_neg c (by simpa using h)]
      exact beq_eq_false_iff_ne.mpr (hnochild c hc)
  have hmap_n : (cells.map (fun c => if c.id == cellId then u else c)).find?
      (fun c => c.id == n + 1) = none := by
    apply find?_map_eq_none
    intro c hc
    exact beq_eq_false_iff_ne.mpr (Nat.ne_of_lt (Nat.lt_succ_of_lt (hmap_id c hc)))
  have e1 : ((cells.map (fun c => if c.id == cellId then u else c)) ++ [A, B]).find?
      (fun c => c.id == n + 1) = some B := by
    rw [find?_append_none hmap_n, List.find?_cons]
    have hA' : (A.id == n + 1) = false := by
      rw [hA]
      simp
    simp only [hA']
    rw [List.find?_cons]
    simp [hB]
  have e3 : ((cells.map (fun c => if c.id == cellId then u else c)) ++ [A, B]).find?
      (fun c => c.id == cellId) = some u :=
    find?_append_some (find?_map_replace cells cellId u cell huid hfind)
  have hmap_sib : (cells.map (fun c => if c.id == cellId then u else c)).find?
      (fun c => c.parentId == some cellId && !(c.id == n + 1)) = none := by
    apply find?_map_eq_none
    intro c hc
    rw [hmap_par c hc]
    rfl
  have e4 : ((cells.map (fun c => if c.id == cellId then u else c)) ++ [A, B]).find?
      (fun c => c.parentId == some cellId && !(c.id == n + 1)) = some A := by
    rw [find?_append_none hmap_sib, List.find?_cons]
    have hA' : (A.parentId == some cellId && !(A.id == n + 1)) = true := by
      rw [hA]
      simp [hApar]
    simp [hA']
  simp only [mergeGridCells, e1, hBpar, e3, e4]
  rw [hupd, List.filter_append]
  have hfAB : List.filter (fun c => !(c.id == n + 1) && !(c.id == A.id)) [A, B] = [] := by
    simp [hA, hB]
  have hfmap : List.filter (fun c => !(c.id == n + 1) && !(c.id == A.id))
      (cells.map (fun c => if c.id == cellId then u else c)) =
      cells.map (fun c => if c.id == cellId then u else c) := by
    rw [List.filter_eq_self]
    intro x hx
    rcases List.mem_map.mp hx with ⟨c, hc, rfl⟩
    have h1 := hmap_id c hc
    have h2 : (if c.id == cellId then u else c).id ≠ n + 1 :=
      Nat.ne_of_lt (Nat.lt_succ_of_lt h1)
    have h3 : (if c.id == cellId then u else c).id ≠ A.id := by
      rw [hA]
      exact Nat.ne_of_lt h1
    rw [beq_eq_false_iff_ne.mpr h2, beq_eq_false_iff_ne.mpr h3]
    rfl
  rw [hfAB, hfmap, List.append_nil, List.map_map]
  apply map_eq_self_of
  intro c hc
  by_cases h : (c.id == cellId) = true
  · have hc_eq : c = cell := eq_of_mem_id_nodup cells cellId cell c hnodup hfind hc
      (by simpa using h)
    simp only [Function.comp_apply, happ_pos c h]
    rw [if_pos (by simp [huid]), hc_eq]
  · simp only [Function.comp_apply, happ_neg c (by simpa using h)]
    rw [if_neg (by simpa using h)]

/-- C2: splitting a leaf for a new occupant and then merging the generated
leaf of that occupant returns exactly the original arena.  The hypotheses
say that cellId names a leaf of the arena, ids are pairwise distinct and
below the fresh-id counter, no cell of the arena is a child of the split
leaf, and the leaf rectangle is not degenerate. -/
theorem C2_split_merge_roundtrip (cells : List GridCell) (n cellId : Nat)
    (edge : SnapPosition) (wid : Nat) (cell : GridCell)
    (hfind : cells.find? (fun c => c.id == cellId) = some cell)
    (hleaf : cell.children = none)
    (hnodup : (cells.map (fun c => c.id)).Nodup)
    (hfresh : ∀ c ∈ cells, c.id < n)
    (hnochild : ∀ c ∈ cells, c.parentId ≠ some cellId)
    (hw : 0 ≤ cell.width) (hh : 0 ≤ cell.height) :
    mergeGridCells (splitGridCell cells n cellId edge wid).1 (splitNewLeafId edge n)
      = cells := by
  have hcid : cell.id = cellId := by simpa using List.find?_some hfind
  obtain ⟨cid, cx, cy, cw, ch, cwin, cch, cpar⟩ := cell
  dsimp only at hcid hleaf hw hh
  subst hleaf
  cases edge with
  | left =>
    rw [splitGridCell_left_eq cells n cellId wid _ hfind]
    refine mergeGridCells_split_aux1 cells cellId n _ _ _ _ hnodup hfind hfresh hnochild
      hcid rfl rfl rfl (by simp [hcid]) (by simp [hcid]) ?_
    dsimp only
    have e1 : min cx (cx + cw / 2) = cx := min_eq_left (by linarith)
    have e2 : max (cx + cw) (cx + cw / 2 + cw / 2) - cx = cw := by
      have h2 : cx + cw / 2 + cw / 2 = cx + cw := by ring
      rw [h2, max_self]
      ring
    have e3 : max (cy + ch) (cy + ch) - cy = ch := by
      rw [max_self]
      ring
    simp [GridCell.mk.injEq, e1, e2, e3, min_self]
  | right =>
    rw [splitGridCell_right_eq cells n cellId wid _ hfind]
    refine mergeGridCells_split_aux2 cells cellId n _ _ _ _ hnodup hfind hfresh hnochild
      hcid rfl rfl rfl (by simp [hcid]) (by simp [hcid]) ?_
    dsimp only
    have e2 : max (cx + cw) (cx + cw / 2) - cx = cw := by
      rw [max_eq_left (by linarith)]
      ring
    have e3 : max (cy + ch) (cy + ch) - cy = ch := by
      rw [max_self]
      ring
    simp [GridCell.mk.injEq, e2, e3, min_self]
  | top =>
    rw [splitGridCell_top_eq cells n cellId wid _ hfind]
    refine mergeGridCells_split_aux1 cells cellId n _ _ _ _ hnodup hfind hfresh hnochild
      hcid rfl rfl rfl (by simp [hcid]) (by simp [hcid]) ?_
    dsimp only
    have e1 : min cy (cy + ch / 2) = cy := min_eq_left (by linarith)
    have e2 : max (cy + ch) (cy + ch / 2 + ch / 2) - cy = ch := by
      have h2 : cy + ch / 2 + ch / 2 = cy + ch := by ring
      rw [h2, max_self]
      ring
    have e3 : max (cx + cw) (cx + cw) - cx = cw := by
      rw [max_self]
      ring
    simp [GridCell.mk.injEq, e1, e2, e3, min_self]
  | bottom =>
    rw [splitGridCell_bottom_eq cells n cellId wid _ hfind]
    refine mergeGridCells_split_aux2 cells cellId n _ _ _ _ hnodup hfind hfresh hnochild
      hcid rfl rfl rfl (by simp [hcid]) (by simp [hcid]) ?_
    dsimp only
    have e2 : max (cy + ch) (cy + ch / 2) - cy = ch := by
      rw [max_eq_left (by linarith)]
      ring
    have e3 : max (cx + cw) (cx + cw) - cx = cw := by
      rw [max_self]
      ring
    simp [GridCell.mk.injEq, e2, e3, min_self]

unseal Rat.add Rat.sub Rat.mul Rat.inv in
/-- Witness for C2: a split of the single root leaf followed by the merge of
the generated occupant leaf restores the one-cell arena. -/
theorem C2_split_merge_roundtrip_witness :
    mergeGridCells
      (splitGridCell [{ id := 0, x := 0, y := 0, width := 1000, height := 800 }]
        1 0 SnapPosition.left 7).1
      (splitNewLeafId SnapPosition.left 1)
      = [{ id := 0, x := 0, y := 0, width := 1000, height := 800 }] :=
  C2_split_merge_roundtrip
    [{ id := 0, x := 0, y := 0, width := 1000, height := 800 }] 1 0
    SnapPosition.left 7 { id := 0, x := 0, y := 0, width := 1000, height := 800 }
    (by decide) rfl (by decide) (by decide) (by decide) (by decide) (by decide)

/-- Auxiliary: after replacing a cell, a lookup for an id at least the fresh
bound fails. -/
theorem find?_map_replace_fresh (cells : List GridCell) (cellId m : Nat) (u : GridCell)
    (hum : u.id < m) (hfresh : ∀ c ∈ cells, c.id < m) :
    (cells.map (fun c => if c.id == cellId then u else c)).find?
      (fun c => c.id == m) = none := by
  apply find?_map_eq_none
  intro c hc
  by_cases h : (c.id == cellId) = true
  · rw [if_pos h]
    exact beq_eq_false_iff_ne.mpr (Nat.ne_of_lt hum)
  · rw [if_neg (by simpa using h)]
    exact beq_eq_false_iff_ne.mpr (Nat.ne_of_lt (hfresh c hc))

/-- C3: splitting an existing leaf halves its rectangle along the axis
implied by the edge, the child on the edge side receives the new occupant,
the other child inherits the original occupant (possibly none), and the
original cell becomes internal with exactly the two generated leaves as
children and no occupant. -/
theorem C3_split_functional_correctness (cells : List GridCell) (n cellId : Nat)
    (edge : SnapPosition) (wid : Nat) (cell : GridCell)
    (hfind : cells.find? (fun c => c.id == cellId) = some cell)
    (_hleaf : cell.children = none)
    (hfresh : ∀ c ∈ cells, c.id < n) :
    ((splitGridCell cells n cellId edge wid).1.find? (fun c => c.id == cellId) =
      some { cell with windowId := none, children := some [n, n + 1] }) ∧
    (∃ a b,
      (splitGridCell cells n cellId edge wid).1.find? (fun c => c.id == n) = some a ∧
      (splitGridCell cells n cellId edge wid).1.find? (fun c => c.id == n + 1) = some b ∧
      a.parentId = some cellId ∧ b.parentId = some cellId ∧
      a.children = none ∧ b.children = none ∧
      ((edge = SnapPosition.left ∨ edge = SnapPosition.right) →
        a.x = cell.x ∧ a.y = cell.y ∧ a.width = cell.width / 2 ∧ a.height = cell.height ∧
        b.x = cell.x + cell.width / 2 ∧ b.y = cell.y ∧ b.width = cell.width / 2 ∧
        b.height = cell.height) ∧
      ((edge = SnapPosition.top ∨ edge = SnapPosition.bottom) →
        a.x = cell.x ∧ a.y = cell.y ∧ a.width = cell.width ∧ a.height = cell.height / 2 ∧
        b.x = cell.x ∧ b.y = cell.y + cell.height / 2 ∧ b.width = cell.width ∧
        b.height = cell.height / 2) ∧
      (edge = SnapPosition.left → a.windowId = some wid ∧ b.windowId = cell.windowId) ∧
      (edge = SnapPosition.right → b.windowId = some wid ∧ a.windowId = cell.windowId) ∧
      (edge = SnapPosition.top → a.windowId = some wid ∧ b.windowId = cell.windowId) ∧
      (edge = SnapPosition.bottom → b.windowId = some wid ∧ a.windowId = cell.windowId)) := by
  have hcid : cell.id = cellId := by simpa using List.find?_some hfind
  have hmem : cell ∈ cells := List.mem_of_find?_eq_some hfind
  have hclt : cell.id < n := hfresh cell hmem
  cases edge with
  | left =>
    rw [splitGridCell_left_eq cells n cellId wid cell hfind]
    constructor
    · exact find?_append_some (find?_map_replace cells cellId _ cell hcid hfind)
    · refine ⟨{ id := n, x := cell.x, y := cell.y, width := cell.width / 2, height := cell.height, windowId := some wid, parentId := some cell.id },
        { id := n + 1, x := cell.x + cell.width / 2, y := cell.y, width := cell.width / 2, height := cell.height, windowId := cell.windowId, parentId := some cell.id }, ?_, ?_, by simp [hcid], by simp [hcid], rfl, rfl,
        fun _ => ⟨rfl, rfl, rfl, rfl, rfl, rfl, rfl, rfl⟩,
        fun h => by rcases h with h | h <;> exact absurd h (by decide),
        fun _ => ⟨rfl, rfl⟩,
        fun h => absurd h (by decide),
        fun h => absurd h (by decide),
        fun h => absurd h (by decide)⟩
      · rw [find?_append_none (find?_map_replace_fresh cells cellId n _
          (by simpa [hcid] using hclt) hfresh), List.find?_cons]
        simp
      · rw [find?_append_none (find?_map_replace_fresh cells cellId (n + 1) _
          (by simpa [hcid] using Nat.lt_succ_of_lt hclt)
          (fun c hc => Nat.lt_succ_of_lt (hfresh c hc))), List.find?_cons]
        have h1 : ((n : Nat) == n + 1) = false := by simp
        simp only [h1]
        rw [List.find?_cons]
        simp
  | right =>
    rw [splitGridCell_right_eq cells n cellId wid cell hfind]
    constructor
    · exact find?_append_some (find?_map_replace cells cellId _ cell hcid hfind)
    · refine ⟨{ id := n, x := cell.x, y := cell.y, width := cell.width / 2, height := cell.height, windowId := cell.windowId, parentId := some cell.id },
        { id := n + 1, x := cell.x + cell.width / 2, y := cell.y, width := cell.width / 2, height := cell.height, windowId := some wid, parentId := some cell.id }, ?_, ?_, by simp [hcid], by simp [hcid], rfl, rfl,
        fun _ => ⟨rfl, rfl, rfl, rfl, rfl, rfl, rfl, rfl⟩,
        fun h => by rcases h with h | h <;> exact absurd h (by decide),
        fun h => absurd h (by decide),
        fun _ => ⟨rfl, rfl⟩,
        fun h => absurd h (by decide),
        fun h => absurd h (by decide)⟩
      · rw [find?_append_none (find?_map_replace_fresh cells cellId n _
          (by simpa [hcid] using hclt) hfresh), List.find?_cons]
        simp
      · rw [find?_append_none (find?_map_replace_fresh cells cellId (n + 1) _
          (by simpa [hcid] using Nat.lt_succ_of_lt hclt)
          (fun c hc => Nat.lt_succ_of_lt (hfresh c hc))), List.find?_cons]
        have h1 : ((n : Nat) == n + 1) = false := by simp
        simp only [h1]
        rw [List.find?_cons]
        simp
  | top =>
    rw [splitGridCell_top_eq cells n cellId wid cell hfind]
    constructor
    · exact find?_append_some (find?_map_replace cells cellId _ cell hcid hfind)
    · refine ⟨{ id := n, x := cell.x, y := cell.y, width := cell.width, height := cell.height / 2, windowId := some wid, parentId := some cell.id },
        { id := n + 1, x := cell.x, y := cell.y + cell.height / 2, width := cell.width, height := cell.height / 2, windowId := cell.windowId, parentId := some cell.id }, ?_, ?_, by simp [hcid], by simp [hcid], rfl, rfl,
        fun h => by rcases h with h | h <;> exact absurd h (by decide),
        fun _ => ⟨rfl, rfl, rfl, rfl, rfl, rfl, rfl, rfl⟩,
        fun h => absurd h (by decide),
        fun h => absurd h (by decide),
        fun _ => ⟨rfl, rfl⟩,
        fun h => absurd h (by decide)⟩
      · rw [find?_append_none (find?_map_replace_fresh cells cellId n _
          (by simpa [hcid] using hclt) hfresh), List.find?_cons]
        simp
      · rw [find?_append_none (find?_map_replace_fresh cells cellId (n + 1) _
          (by simpa [hcid] using Nat.lt_succ_of_lt hclt)
          (fun c hc => Nat.lt_succ_of_lt (hfresh c hc))), List.find?_cons]
        have h1 : ((n : Nat) == n + 1) = false := by simp
        simp only [h1]
        rw [List.find?_cons]
        simp
  | bottom =>
    rw [splitGridCell_bottom_eq cells n cellId wid cell hfind]
    constructor
    · exact find?_append_some (find?_map_replace cells cellId _ cell hcid hfind)
    · refine ⟨{ id := n, x := cell.x, y := cell.y, width := cell.width, height := cell.height / 2, windowId := cell.windowId, parentId := some cell.id },
        { id := n + 1, x := cell.x, y := cell.y + cell.height / 2, width := cell.width, height := cell.height / 2, windowId := some wid, parentId := some cell.id }, ?_, ?_, by simp [hcid], by simp [hcid], rfl, rfl,
        fun h => by rcases h with h | h <;> exact absurd h (by decide),
        fun _ => ⟨rfl, rfl, rfl, rfl, rfl, rfl, rfl, rfl⟩,
        fun h => absurd h (by decide),
        fun h => absurd h (by decide),
        fun h => absurd h (by decide),
        fun _ => ⟨rfl, rfl⟩⟩
      · rw [find?_append_none (find?_map_replace_fresh cells cellId n _
          (by simpa [hcid] using hclt) hfresh), List.find?_cons]
        simp
      · rw [find?_append_none (find?_map_replace_fresh cells cellId (n + 1) _
          (by simpa [hcid] using Nat.lt_succ_of_lt hclt)
          (fun c hc => Nat.lt_succ_of_lt (hfresh c hc))), List.find?_cons]
        have h1 : ((n : Nat) == n + 1) = false := by simp
        simp only [h1]
        rw [List.find?_cons]
        simp
  
unseal Rat.add Rat.sub Rat.mul Rat.inv in
/-- Witness for C3: splitting the single root leaf turns it into an internal
cell with the two generated children. -/
theorem C3_split_functional_correctness_witness :
    (splitGridCell [{ id := 0, x := 0, y := 0, width := 1000, height := 800 }]
      1 0 SnapPosition.left 7).1.find? (fun c => c.id == 0) =
      some { id := 0, x := 0, y := 0, width := 1000, height := 800,
             windowId := none, children := some [1, 2] } :=
  (C3_split_functional_correctness
    [{ id := 0, x := 0, y := 0, width := 1000, height := 800 }] 1 0
    SnapPosition.left 7 { id := 0, x := 0, y := 0, width := 1000, height := 800 }
    (by decide) rfl (by decide)).1

/-- C8 amended: split is a no-op exactly when no cell carries the requested
id; when any cell carries it, leaf or internal, the split goes ahead and the
arena grows by the two generated children. -/
theorem C8_amended_split_noop (cells : List GridCell) (n cellId : Nat)
    (edge : SnapPosition) (wid : Nat) :
    (cells.find? (fun c => c.id == cellId) = none →
      splitGridCell cells n cellId edge wid = (cells, n)) ∧
    (∀ cell, cells.find? (fun c => c.id == cellId) = some cell →
      (splitGridCell cells n cellId edge wid).1.length = cells.length + 2) := by
  constructor
  · intro h
    simp [splitGridCell, h]
  · intro cell h
    cases edge <;> simp [splitGridCell, h]

unseal Rat.add Rat.sub Rat.mul Rat.inv in
/-- Witness for C8 amended: id 5 names no cell of cells8, so the split is a
no-op there; id 1 names a leaf, so the split adds two cells. -/
theorem C8_amended_split_noop_witness :
    splitGridCell cells8 3 5 SnapPosition.left 9 = (cells8, 3) ∧
    (splitGridCell cells8 3 1 SnapPosition.left 9).1.length = cells8.length + 2 :=
  ⟨(C8_amended_split_noop cells8 3 5 SnapPosition.left 9).1 (by decide),
   (C8_amended_split_noop cells8 3 1 SnapPosition.left 9).2
     { id := 1, x := 0, y := 0, width := 50, height := 100, parentId := some 0 }
     (by decide)⟩

/-- C5 amended: the candidate position pointerPos minus offset is clamped on
each axis into the parent region when the dragged window has one that
resolves, with clamp-to-edge when the window is larger than the region; a
window with no parent reference that occupies no cell is not clamped at all
(in particular a free window is not clamped into the viewport). -/
theorem C5_amended_drag_clamping (gridCells : List GridCell) (win : WindowData)
    (did : Nat) (offx offy ex ey : ℚ) :
    (∀ pid pc, win.parentId = some pid →
      gridCells.find? (fun c => c.id == pid) = some pc →
      pc.x ≤ (dragNewPos gridCells (some win) did offx offy ex ey).1 ∧
      (dragNewPos gridCells (some win) did offx offy ex ey).1
        ≤ max pc.x (pc.x + pc.width - win.size.1) ∧
      pc.y ≤ (dragNewPos gridCells (some win) did offx offy ex ey).2 ∧
      (dragNewPos gridCells (some win) did offx offy ex ey).2
        ≤ max pc.y (pc.y + pc.height - win.size.2) ∧
      (pc.x + pc.width - win.size.1 < pc.x →
        (dragNewPos gridCells (some win) did offx offy ex ey).1 = pc.x) ∧
      (pc.y + pc.height - win.size.2 < pc.y →
        (dragNewPos gridCells (some win) did offx offy ex ey).2 = pc.y)) ∧
    (win.parentId = none →
      gridCells.find? (fun c => c.windowId == some did) = none →
      dragNewPos gridCells (some win) did offx offy ex ey = (ex - offx, ey - offy)) := by
  constructor
  · intro pid pc hpid hpc
    simp only [dragNewPos, hpid, hpc, Option.some_bind, Option.some_orElse']
    refine ⟨?_, ?_, ?_, ?_, ?_, ?_⟩
    · exact le_min (le_max_right _ _) (le_max_left _ _)
    · exact min_le_right _ _
    · exact le_min (le_max_right _ _) (le_max_left _ _)
    · exact min_le_right _ _
    · intro hlt
      have h1 : max pc.x (pc.x + pc.width - win.size.1) = pc.x := max_eq_left hlt.le
      rw [h1]
      exact min_eq_right (le_max_right _ _)
    · intro hlt
      have h1 : max pc.y (pc.y + pc.height - win.size.2) = pc.y := max_eq_left hlt.le
      rw [h1]
      exact min_eq_right (le_max_right _ _)
  · intro hpid hcur
    simp [dragNewPos, hpid, hcur]

unseal Rat.add Rat.sub Rat.mul Rat.inv in
/-- Witness for C5 amended: in S6 the dragged docked window is clamped into
the root region; in S5 the dragged free window is left unclamped. -/
theorem C5_amended_drag_clamping_witness :
    (0 : ℚ) ≤ (dragNewPos S6.gridCells
      (some { id := 1, color := 0, position := (0, 0), size := (500, 800),
              snapped := some .left, parentId := some 0 }) 1 0 0 100 100).1 ∧
    dragNewPos S5.gridCells
      (some { id := 1, color := 0, position := (300, 300), size := (300, 200) })
      1 0 0 (-50) (-60) = (-50, -60) := by
  constructor
  · exact ((C5_amended_drag_clamping S6.gridCells
      { id := 1, color := 0, position := (0, 0), size := (500, 800),
        snapped := some .left, parentId := some 0 } 1 0 0 100 100).1
      0 { id := 0, x := 0, y := 0, width := 1000, height := 800, children := some [1, 2] }
      rfl (by decide)).1
  · exact (C5_amended_drag_clamping S5.gridCells
      { id := 1, color := 0, position := (300, 300), size := (300, 200) }
      1 0 0 (-50) (-60)).2 rfl (by decide)

/-- C6 amended: a pointer-move during a drag commits no tree mutation (the
arena and the id counter are unchanged), leaves every other window
unchanged, and replaces the dragged window by a copy whose position is the
clamped candidate and whose snapped flag is cleared; its size and its parent
reference are unchanged. -/
theorem C6_amended_drag_update (s : State) (ex ey : ℚ) (did : Nat)
    (h : s.draggingId = some did) :
    (onDrag s ex ey).gridCells = s.gridCells ∧
    (onDrag s ex ey).nextId = s.nextId ∧
    (∀ w ∈ s.windows, ¬ w.id = did → w ∈ (onDrag s ex ey).windows) ∧
    (∀ w ∈ s.windows, w.id = did →
      { w with
        position := dragNewPos s.gridCells (s.windows.find? (fun x => x.id == did))
          did s.dragOffset.1 s.dragOffset.2 ex ey,
        snapped := none } ∈ (onDrag s ex ey).windows) := by
  refine ⟨by simp [onDrag, h], by simp [onDrag, h], ?_, ?_⟩
  · intro w hw hne
    simp only [onDrag, h]
    have := List.mem_map_of_mem
      (fun w : WindowData => if w.id == did then
        { w with
          position := dragNewPos s.gridCells (s.windows.find? (fun x => x.id == did))
            did s.dragOffset.1 s.dragOffset.2 ex ey,
          snapped := none } else w) hw
    simpa [if_neg (by simpa using hne)] using this
  · intro w hw heq
    simp only [onDrag, h]
    have := List.mem_map_of_mem
      (fun w : WindowData => if w.id == did then
        { w with
          position := dragNewPos s.gridCells (s.windows.find? (fun x => x.id == did))
            did s.dragOffset.1 s.dragOffset.2 ex ey,
          snapped := none } else w) hw
    simpa [if_pos (by simpa using heq)] using this

unseal Rat.add Rat.sub Rat.mul Rat.inv in
/-- Witness for C6 amended: the concrete drag step on S6. -/
theorem C6_amended_drag_update_witness :
    (onDrag S6 100 100).gridCells = S6.gridCells ∧
    ({ id := 1, color := 0, position := (0, 0), size := (500, 800),
       snapped := some .left, parentId := some 0 } :  WindowData)
      = { id := 1, color := 0, position := (0, 0), size := (500, 800),
          snapped := some .left, parentId := some 0 } ∧
    { (⟨1, 0, (0, 0), (500, 800), some .left, some 0⟩ : WindowData) with
      position := dragNewPos S6.gridCells (S6.windows.find? (fun x => x.id == 1))
        1 S6.dragOffset.1 S6.dragOffset.2 100 100,
      snapped := none } ∈ (onDrag S6 100 100).windows := by
  refine ⟨(C6_amended_drag_update S6 100 100 1 rfl).1, rfl, ?_⟩
  exact (C6_amended_drag_update S6 100 100 1 rfl).2.2.2
    ⟨1, 0, (0, 0), (500, 800), some .left, some 0⟩ (by decide) rfl

/-- C7: while a docked window (one whose parent reference resolves to a
cell) is dragged, a pointer outside that parent cell rectangle yields no
snap indicator, and screen-edge snapping is disabled for it both in the
pointer-move indicator chain and in the pointer-up commit test. -/
theorem C7_docked_window_indicator (s : State) (ex ey : ℚ) (did pid : Nat)
    (win : WindowData) (pc : GridCell)
    (hdrag : s.draggingId = some did)
    (hwin : s.windows.find? (fun w => w.id == did) = some win)
    (hpid : win.parentId = some pid)
    (hpc : s.gridCells.find? (fun c => c.id == pid) = some pc)
    (hout : ¬ (ex ≥ pc.x ∧ ex ≤ pc.x + pc.width ∧ ey ≥ pc.y ∧ ey ≤ pc.y + pc.height)) :
    (onDrag s ex ey).snapIndicator = none ∧
    (∀ nx ny vw vh : ℚ, dragEndIsScreenEdgeSnap win nx ny vw vh = false) ∧
    (∀ nx ny vw vh : ℚ, screenEdgeIndicator false nx ny vw vh = none) := by
  refine ⟨?_, ?_, ?_⟩
  · simp only [onDrag, hdrag, hwin, Option.some_bind, hpid, hpc]
    have hedge : ∀ nx ny : ℚ,
        screenEdgeIndicator (some pid).isNone nx ny s.viewportW s.viewportH = none := by
      intro nx ny
      simp [screenEdgeIndicator]
    rw [hedge]
    cases hfind : findGridCell s.gridCells ex ey with
    | none => simp
    | some t =>
      simp only [cursorInParentBounds, Option.some_bind, hpc]
      rw [if_neg (by simpa using hout)]
  · intro nx ny vw vh
    simp [dragEndIsScreenEdgeSnap, hpid]
  · intro nx ny vw vh
    simp [screenEdgeIndicator]

unseal Rat.add Rat.sub Rat.mul Rat.inv in
/-- Witness for C7: in S6 the pointer (1200, 10) lies outside the parent
region of the dragged docked window, so no indicator is produced. -/
theorem C7_docked_window_indicator_witness :
    (onDrag S6 1200 10).snapIndicator = none ∧
    dragEndIsScreenEdgeSnap
      { id := 1, color := 0, position := (0, 0), size := (500, 800),
        snapped := some .left, parentId := some 0 } 1 2 3 4 = false ∧
    screenEdgeIndicator false 1 2 3 4 = none := by
  have h := C7_docked_window_indicator S6 1200 10 1 0
    { id := 1, color := 0, position := (0, 0), size := (500, 800),
      snapped := some .left, parentId := some 0 }
    { id := 0, x := 0, y := 0, width := 1000, height := 800, children := some [1, 2] }
    rfl (by decide) rfl (by decide) (by decide)
  exact ⟨h.1, h.2.1 1 2 3 4, h.2.2 1 2 3 4⟩

/-- Auxiliary: mapping an id-preserving function does not change the id list. -/
theorem map_ids_of_pointwise (l : List GridCell) (g : GridCell → GridCell)
    (hg : ∀ c, (g c).id = c.id) :
    (l.map g).map (fun c => c.id) = l.map (fun c => c.id) := by
  rw [List.map_map, show ((fun c : GridCell => c.id) ∘ g) = fun c => c.id from funext hg]

/-- Auxiliary: an id lookup commutes with an id-preserving map. -/
theorem find?_map_id_pred (l : List GridCell) (g : GridCell → GridCell) (m : Nat)
    (hg : ∀ c, (g c).id = c.id) (root : GridCell)
    (h : l.find? (fun c => c.id == m) = some root) :
    (l.map g).find? (fun c => c.id == m) = some (g root) := by
  induction l with
  | nil => simp at h
  | cons x xs ih =>
    rw [List.find?_cons] at h
    rw [List.map_cons, List.find?_cons, show ((g x).id == m) = (x.id == m) by rw [hg x]]
    cases hx : (x.id == m) with
    | true =>
      simp only [hx] at h ⊢
      rw [Option.some.inj h]
    | false =>
      simp only [hx] at h ⊢
      exact ih h

/-- Auxiliary: a find? hit that survives a filter is still the first hit. -/
theorem find?_filter_of_pred {α : Type _} (l : List α) (p pred : α → Bool) (a : α)
    (h : l.find? p = some a) (ha : pred a = true) :
    (l.filter pred).find? p = some a := by
  induction l with
  | nil => simp at h
  | cons x xs ih =>
    rw [List.find?_cons] at h
    cases hx : p x with
    | true =>
      simp only [hx] at h
      have hxa : x = a := Option.some.inj h
      subst hxa
      rw [List.filter_cons_of_pos ha, List.find?_cons, hx]
    | false =>
      simp only [hx] at h
      cases hpx : pred x with
      | true => rw [List.filter_cons_of_pos hpx, List.find?_cons, hx]; exact ih h
      | false => rw [List.filter_cons_of_neg (by simp [hpx])]; exact ih h

/-- Auxiliary: merging only removes cells and renames none, so the id list
of the result is a sublist of the original id list. -/
theorem mergeGridCells_ids_sublist (cells : List GridCell) (cellId : Nat) :
    List.Sublist ((mergeGridCells cells cellId).map (fun c => c.id))
      (cells.map (fun c => c.id)) := by
  cases hfind : cells.find? (fun c => c.id == cellId) with
  | none =>
    simp only [mergeGridCells, hfind]
    exact List.Sublist.refl _
  | some cell =>
    cases hpar : cell.parentId with
    | none =>
      simp only [mergeGridCells, hfind, hpar]
      exact List.Sublist.refl _
    | some pid =>
      cases hparent : cells.find? (fun c => c.id == pid) with
      | none =>
        simp only [mergeGridCells, hfind, hpar, hparent]
        exact List.Sublist.refl _
      | some parent =>
        cases hsib : cells.find? (fun c => c.parentId == some pid && !(c.id == cellId)) with
        | none =>
          simp only [mergeGridCells, hfind, hpar, hparent, hsib]
          exact List.Sublist.refl _
        | some sibling =>
          have hpid : parent.id = pid := by simpa using List.find?_some hparent
          simp only [mergeGridCells, hfind, hpar, hparent, hsib]
          rw [map_ids_of_pointwise]
          · exact List.Sublist.map _ (List.filter_sublist cells)
          · intro c
            by_cases h : (c.id == pid) = true
            · rw [if_pos h]
              have : c.id = pid := by simpa using h
              simp [hpid, this]
            · rw [if_neg (by simpa using h)]

/-- Auxiliary: the id list after a split is either unchanged or extended by
exactly the two generated ids. -/
theorem splitGridCell_ids (cells : List GridCell) (n cellId : Nat)
    (edge : SnapPosition) (wid : Nat) :
    (splitGridCell cells n cellId edge wid).1.map (fun c => c.id) =
        cells.map (fun c => c.id) ∧
        (splitGridCell cells n cellId edge wid).2 = n ∨
      (splitGridCell cells n cellId edge wid).1.map (fun c => c.id) =
        cells.map (fun c => c.id) ++ [n, n + 1] ∧
        (splitGridCell cells n cellId edge wid).2 = n + 2 := by
  cases hfind : cells.find? (fun c => c.id == cellId) with
  | none => left; simp [splitGridCell, hfind]
  | some cell =>
    right
    have hcid : cell.id = cellId := by simpa using List.find?_some hfind
    have hpt : ∀ c : GridCell,
        ((if c.id == cellId then
          { cell with windowId := none, children := some [n, n + 1] } else c)).id = c.id := by
      intro c
      by_cases h : (c.id == cellId) = true
      · rw [if_pos h]
        have : c.id = cellId := by simpa using h
        simp [hcid, this]
      · rw [if_neg (by simpa using h)]
    cases edge with
    | left =>
      rw [splitGridCell_left_eq cells n cellId wid cell hfind]
      exact ⟨by rw [List.map_append, map_ids_of_pointwise _ _ hpt]; rfl, rfl⟩
    | right =>
      rw [splitGridCell_right_eq cells n cellId wid cell hfind]
      exact ⟨by rw [List.map_append, map_ids_of_pointwise _ _ hpt]; rfl, rfl⟩
    | top =>
      rw [splitGridCell_top_eq cells n cellId wid cell hfind]
      exact ⟨by rw [List.map_append, map_ids_of_pointwise _ _ hpt]; rfl, rfl⟩
    | bottom =>
      rw [splitGridCell_bottom_eq cells n cellId wid cell hfind]
      exact ⟨by rw [List.map_append, map_ids_of_pointwise _ _ hpt]; rfl, rfl⟩

/-- Auxiliary: facts about the root cell after a merge.  The root survives
every merge, keeps its id and its absent parent, and keeps its rectangle
whenever every child of the root lies inside the root rectangle. -/
theorem mergeGridCells_root_facts (cells : List GridCell) (cellId : Nat) (root : GridCell)
    (h2 : (cells.map (fun c => c.id)).Nodup)
    (h3 : cells.find? (fun c => c.id == rootId) = some root)
    (hrp : root.parentId = none) :
    ∃ root2, (mergeGridCells cells cellId).find? (fun c => c.id == rootId) = some root2 ∧
      root2.parentId = none ∧
      ((∀ c ∈ cells, c.parentId = some rootId →
          root.x ≤ c.x ∧ root.y ≤ c.y ∧ c.x + c.width ≤ root.x + root.width ∧
          c.y + c.height ≤ root.y + root.height) →
        root2.x = root.x ∧ root2.y = root.y ∧ root2.width = root.width ∧
          root2.height = root.height) := by
  have hrid : root.id = rootId := by simpa using List.find?_some h3
  cases hfind : cells.find? (fun c => c.id == cellId) with
  | none =>
    refine ⟨root, ?_, hrp, fun _ => ⟨rfl, rfl, rfl, rfl⟩⟩
    simp only [mergeGridCells, hfind]
    exact h3
  | some cell =>
    cases hpar : cell.parentId with
    | none =>
      refine ⟨root, ?_, hrp, fun _ => ⟨rfl, rfl, rfl, rfl⟩⟩
      simp only [mergeGridCells, hfind, hpar]
      exact h3
    | some pid =>
      cases hparent : cells.find? (fun c => c.id == pid) with
      | none =>
        refine ⟨root, ?_, hrp, fun _ => ⟨rfl, rfl, rfl, rfl⟩⟩
        simp only [mergeGridCells, hfind, hpar, hparent]
        exact h3
      | some parent =>
        cases hsib : cells.find? (fun c => c.parentId == some pid && !(c.id == cellId)) with
        | none =>
          refine ⟨root, ?_, hrp, fun _ => ⟨rfl, rfl, rfl, rfl⟩⟩
          simp only [mergeGridCells, hfind, hpar, hparent, hsib]
          exact h3
        | some sibling =>
          have hcellid : cell.id = cellId := by simpa using List.find?_some hfind
          have hpid : parent.id = pid := by simpa using List.find?_some hparent
          have hsibpred := List.find?_some hsib
          have hsibpar : sibling.parentId = some pid := by
            have := hsibpred
            simp only [Bool.and_eq_true] at this
            simpa using this.1
          have hc0 : cellId ≠ rootId := by
            intro hc
            subst hc
            rw [h3] at hfind
            have : cell = root := (Option.some.inj hfind).symm
            rw [this, hrp] at hpar
            exact Option.noConfusion hpar
          have hs0 : sibling.id ≠ rootId := by
            intro hs
            have hsroot : sibling = root :=
              eq_of_mem_id_nodup cells rootId root sibling h2 h3
                (List.mem_of_find?_eq_some hsib) hs
            rw [hsroot, hrp] at hsibpar
            exact Option.noConfusion hsibpar
          have hrootpred : (!(root.id == cellId) && !(root.id == sibling.id)) = true := by
            have e1 : (root.id == cellId) = false :=
              beq_eq_false_iff_ne.mpr (by rw [hrid]; exact fun h => hc0 h.symm)
            have e2 : (root.id == sibling.id) = false :=
              beq_eq_false_iff_ne.mpr (by rw [hrid]; exact fun h => hs0 h.symm)
            rw [e1, e2]
            rfl
          have hgpt : ∀ c : GridCell,
              ((if c.id == pid then
                { parent with
                  x := min parent.x sibling.x,
                  y := min parent.y sibling.y,
                  width := max (parent.x + parent.width) (sibling.x + sibling.width)
                    - min parent.x sibling.x,
                  height := max (parent.y + parent.height) (sibling.y + sibling.height)
                    - min parent.y sibling.y,
                  windowId := sibling.windowId,
                  children := none } else c)).id = c.id := by
            intro c
            by_cases h : (c.id == pid) = true
            · rw [if_pos h]
              have : c.id = pid := by simpa using h
              simp [hpid, this]
            · rw [if_neg (by simpa using h)]
          have hfl : (cells.filter
              (fun c => !(c.id == cellId) && !(c.id == sibling.id))).find?
              (fun c => c.id == rootId) = some root :=
            find?_filter_of_pred cells _ _ root h3 hrootpred
          have hfm := find?_map_id_pred _ _ rootId hgpt root hfl
          simp only [mergeGridCells, hfind, hpar, hparent, hsib]
          by_cases hrpid : (root.id == pid) = true
          · have hpid0 : pid = rootId := by
              have : root.id = pid := by simpa using hrpid
              rw [← this, hrid]
            subst hpid0
            have hparent_root : parent = root := by
              rw [h3] at hparent
              exact (Option.some.inj hparent).symm
            refine ⟨_, hfm, ?_, ?_⟩
            · rw [if_pos hrpid]
              simpa using (hparent_root ▸ hrp)
            · intro hcont
              rw [if_pos hrpid]
              have hsibmem : sibling ∈ cells := List.mem_of_find?_eq_some hsib
              obtain ⟨b1, b2, b3, b4⟩ := hcont sibling hsibmem hsibpar
              subst hparent_root
              refine ⟨?_, ?_, ?_, ?_⟩
              · exact min_eq_left b1
              · exact min_eq_left b2
              · rw [max_eq_left b3, min_eq_left b1]
                exact add_sub_cancel_left _ _
              · rw [max_eq_left b4, min_eq_left b2]
                exact add_sub_cancel_left _ _
          · refine ⟨_, hfm, ?_, ?_⟩
            · rw [if_neg (by simpa using hrpid)]
              exact hrp
            · intro _
              rw [if_neg (by simpa using hrpid)]
              exact ⟨rfl, rfl, rfl, rfl⟩

/-- Auxiliary: facts about the root cell after a split: it survives, keeps
its id and keeps its absent parent. -/
theorem splitGridCell_root_facts (cells : List GridCell) (n cellId : Nat)
    (edge : SnapPosition) (wid : Nat) (root : GridCell)
    (h3 : cells.find? (fun c => c.id == rootId) = some root)
    (hrp : root.parentId = none) :
    ∃ root2, (splitGridCell cells n cellId edge wid).1.find?
        (fun c => c.id == rootId) = some root2 ∧ root2.parentId = none := by
  cases hfind : cells.find? (fun c => c.id == cellId) with
  | none =>
    refine ⟨root, ?_, hrp⟩
    simp only [splitGridCell, hfind]
    exact h3
  | some cell =>
    have hcid : cell.id = cellId := by simpa using List.find?_some hfind
    have hpt : ∀ c : GridCell,
        ((if c.id == cellId then
          { cell with windowId := none, children := some [n, n + 1] } else c)).id = c.id := by
      intro c
      by_cases h : (c.id == cellId) = true
      · rw [if_pos h]
        have : c.id = cellId := by simpa using h
        simp [hcid, this]
      · rw [if_neg (by simpa using h)]
    have hfm := find?_map_id_pred _ _ rootId hpt root h3
    have hroot2 : (if root.id == cellId then
        { cell with windowId := none, children := some [n, n + 1] } else root).parentId
        = none := by
      by_cases h : (root.id == cellId) = true
      · rw [if_pos h]
        have hrid : root.id = rootId := by simpa using List.find?_some h3
        have h1 : root.id = cellId := by simpa using h
        have hcr : cellId = rootId := by rw [← h1, hrid]
        subst hcr
        rw [h3] at hfind
        have : cell = root := (Option.some.inj hfind).symm
        rw [this]
        simpa using hrp
      · rw [if_neg (by simpa using h)]
        exact hrp
    cases edge with
    | left =>
      rw [splitGridCell_left_eq cells n cellId wid cell hfind]
      exact ⟨_, find?_append_some hfm, hroot2⟩
    | right =>
      rw [splitGridCell_right_eq cells n cellId wid cell hfind]
      exact ⟨_, find?_append_some hfm, hroot2⟩
    | top =>
      rw [splitGridCell_top_eq cells n cellId wid cell hfind]
      exact ⟨_, find?_append_some hfm, hroot2⟩
    | bottom =>
      rw [splitGridCell_bottom_eq cells n cellId wid cell hfind]
      exact ⟨_, find?_append_some hfm, hroot2⟩

/-- Auxiliary: a pointer move never touches the arena or the id counter. -/
theorem onDrag_cells (s : State) (ex ey : ℚ) :
    (onDrag s ex ey).gridCells = s.gridCells ∧ (onDrag s ex ey).nextId = s.nextId := by
  cases h : s.draggingId <;> simp [onDrag, h]

/-- Auxiliary: a drag start never touches the arena or the id counter. -/
theorem onDragStart_cells (s : State) (ex ey : ℚ) (id : Nat) :
    (onDragStart s ex ey id).gridCells = s.gridCells ∧
      (onDragStart s ex ey id).nextId = s.nextId := by
  cases h : s.windows.find? (fun w => w.id == id) <;> simp [onDragStart, h]

/-- Auxiliary: ending a drag either leaves the arena and the counter alone
or commits exactly one split at the current counter. -/
theorem onDragEnd_cells (s : State) (ex ey : ℚ) :
    ((onDragEnd s ex ey).gridCells = s.gridCells ∧
      (onDragEnd s ex ey).nextId = s.nextId) ∨
    (∃ cid ind did, (onDragEnd s ex ey).gridCells =
        (splitGridCell s.gridCells s.nextId cid ind did).1 ∧
      (onDragEnd s ex ey).nextId = (splitGridCell s.gridCells s.nextId cid ind did).2) := by
  cases hd : s.draggingId with
  | none => left; simp [onDragEnd, hd]
  | some did =>
    cases hw : s.windows.find? (fun w => w.id == did) with
    | none => left; simp [onDragEnd, hd, hw]
    | some win =>
      cases hi : s.snapIndicator with
      | none => left; simp [onDragEnd, hd, hw, hi]
      | some ind =>
        cases hse : dragEndIsScreenEdgeSnap win (ex - s.dragOffset.1)
            (ey - s.dragOffset.2) s.viewportW s.viewportH with
        | true => left; simp [onDragEnd, hd, hw, hi, hse]
        | false =>
          cases hf : findGridCell s.gridCells ex ey with
          | none => left; simp [onDragEnd, hd, hw, hi, hse, hf]
          | some t =>
            cases hb : cursorInParentBounds
                (win.parentId.bind (fun pid =>
                  s.gridCells.find? (fun c => c.id == pid))) ex ey with
            | false => left; simp [onDragEnd, hd, hw, hi, hse, hf, hb]
            | true =>
              right
              refine ⟨t.id, ind, did, ?_, ?_⟩ <;>
                cases hfc : (splitGridCell s.gridCells s.nextId t.id ind did).1.find?
                  (fun c => c.windowId == some did) <;>
                simp [onDragEnd, hd, hw, hi, hse, hf, hb, hfc]

/-- Auxiliary: closing a window leaves the arena alone or commits one merge;
the counter never changes. -/
theorem closeWindow_cells (s : State) (id : Nat) :
    ((closeWindow s id).gridCells = s.gridCells ∧
      (closeWindow s id).nextId = s.nextId) ∨
    (∃ cid, (closeWindow s id).gridCells = mergeGridCells s.gridCells cid ∧
      (closeWindow s id).nextId = s.nextId) := by
  cases h : s.gridCells.find? (fun c => c.windowId == some id) with
  | none => left; simp [closeWindow, h]
  | some cell => right; exact ⟨cell.id, by simp [closeWindow, h], by simp [closeWindow, h]⟩

/-- Auxiliary: moving a window out leaves the arena alone or commits one
merge; the counter never changes. -/
theorem moveWindowOut_cells (s : State) (id : Nat) (p : ℚ × ℚ) :
    ((moveWindowOut s id p).gridCells = s.gridCells ∧
      (moveWindowOut s id p).nextId = s.nextId) ∨
    (∃ cid, (moveWindowOut s id p).gridCells = mergeGridCells s.gridCells cid ∧
      (moveWindowOut s id p).nextId = s.nextId) := by
  cases hw : s.windows.find? (fun w => w.id == id) with
  | none => left; simp [moveWindowOut, hw]
  | some win =>
    by_cases hs : win.snapped = none
    · left; simp [moveWindowOut, hw, hs]
    · cases h : s.gridCells.find? (fun c => c.windowId == some id) with
      | none => left; simp [moveWindowOut, hw, hs, h]
      | some cell =>
        right
        exact ⟨cell.id, by simp [moveWindowOut, hw, hs, h], by simp [moveWindowOut, hw, hs, h]⟩

/-- Auxiliary: the invariant of the reducer is preserved by one merge. -/
theorem inv_transfer_merge (cells : List GridCell) (cid n : Nat)
    (h1 : ∀ m ∈ cells.map (fun c => c.id), m < n)
    (h2 : (cells.map (fun c => c.id)).Nodup)
    (h3 : ∃ root, cells.find? (fun c => c.id == rootId) = some root ∧
      root.parentId = none) :
    (∀ m ∈ (mergeGridCells cells cid).map (fun c => c.id), m < n) ∧
    ((mergeGridCells cells cid).map (fun c => c.id)).Nodup ∧
    (∃ root, (mergeGridCells cells cid).find? (fun c => c.id == rootId) = some root ∧
      root.parentId = none) := by
  obtain ⟨root, hfind, hrp⟩ := h3
  refine ⟨?_, ?_, ?_⟩
  · intro m hm
    exact h1 m ((mergeGridCells_ids_sublist cells cid).subset hm)
  · exact h2.sublist (mergeGridCells_ids_sublist cells cid)
  · obtain ⟨root2, hfind2, hrp2, _⟩ := mergeGridCells_root_facts cells cid root h2 hfind hrp
    exact ⟨root2, hfind2, hrp2⟩

/-- Auxiliary: the invariant of the reducer is preserved by one split. -/
theorem inv_transfer_split (cells : List GridCell) (n cid : Nat)
    (edge : SnapPosition) (wid : Nat)
    (h1 : ∀ m ∈ cells.map (fun c => c.id), m < n)
    (h2 : (cells.map (fun c => c.id)).Nodup)
    (h3 : ∃ root, cells.find? (fun c => c.id == rootId) = some root ∧
      root.parentId = none) :
    (∀ m ∈ (splitGridCell cells n cid edge wid).1.map (fun c => c.id),
      m < (splitGridCell cells n cid edge wid).2) ∧
    ((splitGridCell cells n cid edge wid).1.map (fun c => c.id)).Nodup ∧
    (∃ root, (splitGridCell cells n cid edge wid).1.find?
        (fun c => c.id == rootId) = some root ∧ root.parentId = none) := by
  obtain ⟨root, hfind, hrp⟩ := h3
  refine ⟨?_, ?_, splitGridCell_root_facts cells n cid edge wid root hfind hrp⟩
  · intro m hm
    rcases splitGridCell_ids cells n cid edge wid with ⟨hes, hen⟩ | ⟨hes, hen⟩
    · rw [hes] at hm
      rw [hen]
      exact h1 m hm
    · rw [hes] at hm
      rw [hen]
      rcases List.mem_append.mp hm with hm | hm
      · exact Nat.lt_of_lt_of_le (h1 m hm) (Nat.le_add_right n 2)
      · rcases List.mem_cons.mp hm with rfl | hm
        · exact Nat.lt_add_of_pos_right (by norm_num)
        · rcases List.mem_singleton.mp hm with rfl
          exact by omega
  · rcases splitGridCell_ids cells n cid edge wid with ⟨hes, _⟩ | ⟨hes, _⟩
    · rw [hes]
      exact h2
    · rw [hes, List.nodup_append]
      refine ⟨h2, by simp, ?_⟩
      intro a ha hb
      have hlt := h1 a ha
      rcases List.mem_cons.mp hb with rfl | hb
      · exact absurd hlt (lt_irrefl a)
      · rcases List.mem_singleton.mp hb with rfl
        exact absurd (Nat.lt_succ_of_lt hlt) (by simp)

/-- Auxiliary: the invariant of the reducer is preserved by a resize. -/
theorem inv_transfer_resize (s : State) (w h : ℚ)
    (h1 : ∀ m ∈ s.gridCells.map (fun c => c.id), m < s.nextId)
    (h2 : (s.gridCells.map (fun c => c.id)).Nodup)
    (h3 : ∃ root, s.gridCells.find? (fun c => c.id == rootId) = some root ∧
      root.parentId = none) :
    (∀ m ∈ (handleResize s w h).gridCells.map (fun c => c.id),
      m < (handleResize s w h).nextId) ∧
    ((handleResize s w h).gridCells.map (fun c => c.id)).Nodup ∧
    (∃ root, (handleResize s w h).gridCells.find? (fun c => c.id == rootId) = some root ∧
      root.parentId = none) := by
  obtain ⟨root, hfind, hrp⟩ := h3
  have hpt : ∀ c : GridCell,
      ((if c.id == rootId then { c with width := w, height := h } else c)).id = c.id := by
    intro c
    by_cases hc : (c.id == rootId) = true
    · rw [if_pos hc]
    · rw [if_neg (by simpa using hc)]
  have hids : (handleResize s w h).gridCells.map (fun c => c.id) =
      s.gridCells.map (fun c => c.id) := by
    simp only [handleResize]
    exact map_ids_of_pointwise _ _ hpt
  refine ⟨?_, ?_, ?_⟩
  · intro m hm
    rw [hids] at hm
    exact h1 m hm
  · rw [hids]
    exact h2
  · refine ⟨if root.id == rootId then { root with width := w, height := h } else root,
      find?_map_id_pred _ _ rootId hpt root hfind, ?_⟩
    by_cases hc : (root.id == rootId) = true
    · rw [if_pos hc]
      simpa using hrp
    · rw [if_neg (by simpa using hc)]
      exact hrp

/-- Auxiliary: the reducer invariant (ids below the counter, pairwise
distinct ids, a root cell with no parent) is preserved by every event. -/
theorem inv_step (s : State) (ev : Event)
    (h1 : ∀ m ∈ s.gridCells.map (fun c => c.id), m < s.nextId)
    (h2 : (s.gridCells.map (fun c => c.id)).Nodup)
    (h3 : ∃ root, s.gridCells.find? (fun c => c.id == rootId) = some root ∧
      root.parentId = none) :
    (∀ m ∈ (step s ev).gridCells.map (fun c => c.id), m < (step s ev).nextId) ∧
    ((step s ev).gridCells.map (fun c => c.id)).Nodup ∧
    (∃ root, (step s ev).gridCells.find? (fun c => c.id == rootId) = some root ∧
      root.parentId = none) := by
  cases ev with
  | createWindow pos color =>
    refine ⟨?_, h2, h3⟩
    intro m hm
    exact Nat.lt_succ_of_lt (h1 m hm)
  | pointerDown ex ey id =>
    obtain ⟨hc, hn⟩ := onDragStart_cells s ex ey id
    rw [show step s (Event.pointerDown ex ey id) = onDragStart s ex ey id from rfl, hc, hn]
    exact ⟨h1, h2, h3⟩
  | pointerMove ex ey =>
    obtain ⟨hc, hn⟩ := onDrag_cells s ex ey
    rw [show step s (Event.pointerMove ex ey) = onDrag s ex ey from rfl, hc, hn]
    exact ⟨h1, h2, h3⟩
  | pointerUp ex ey =>
    rcases onDragEnd_cells s ex ey with ⟨hc, hn⟩ | ⟨cid, ind, did, hc, hn⟩
    · rw [show step s (Event.pointerUp ex ey) = onDragEnd s ex ey from rfl, hc, hn]
      exact ⟨h1, h2, h3⟩
    · rw [show step s (Event.pointerUp ex ey) = onDragEnd s ex ey from rfl, hc, hn]
      exact inv_transfer_split s.gridCells s.nextId cid ind did h1 h2 h3
  | viewportResize w h =>
    exact inv_transfer_resize s w h h1 h2 h3
  | close id =>
    rcases closeWindow_cells s id with ⟨hc, hn⟩ | ⟨cid, hc, hn⟩
    · rw [show step s (Event.close id) = closeWindow s id from rfl, hc, hn]
      exact ⟨h1, h2, h3⟩
    · rw [show step s (Event.close id) = closeWindow s id from rfl, hc, hn]
      exact inv_transfer_merge s.gridCells cid s.nextId h1 h2 h3
  | moveOut id p =>
    rcases moveWindowOut_cells s id p with ⟨hc, hn⟩ | ⟨cid, hc, hn⟩
    · rw [show step s (Event.moveOut id p) = moveWindowOut s id p from rfl, hc, hn]
      exact ⟨h1, h2, h3⟩
    · rw [show step s (Event.moveOut id p) = moveWindowOut s id p from rfl, hc, hn]
      exact inv_transfer_merge s.gridCells cid s.nextId h1 h2 h3

/-- Auxiliary: the reducer invariant holds in every reachable state. -/
theorem inv_run (vw vh : ℚ) (evs : List Event) :
    (∀ m ∈ (runEvents vw vh evs).gridCells.map (fun c => c.id),
      m < (runEvents vw vh evs).nextId) ∧
    ((runEvents vw vh evs).gridCells.map (fun c => c.id)).Nodup ∧
    (∃ root, (runEvents vw vh evs).gridCells.find? (fun c => c.id == rootId) = some root ∧
      root.parentId = none) := by
  have main : ∀ (l : List Event) (s : State),
      ((∀ m ∈ s.gridCells.map (fun c => c.id), m < s.nextId) ∧
        (s.gridCells.map (fun c => c.id)).Nodup ∧
        (∃ root, s.gridCells.find? (fun c => c.id == rootId) = some root ∧
          root.parentId = none)) →
      ((∀ m ∈ (l.foldl step s).gridCells.map (fun c => c.id),
          m < (l.foldl step s).nextId) ∧
        ((l.foldl step s).gridCells.map (fun c => c.id)).Nodup ∧
        (∃ root, (l.foldl step s).gridCells.find? (fun c => c.id == rootId) = some root ∧
          root.parentId = none)) := by
    intro l
    induction l with
    | nil => intro s h; exact h
    | cons e t ih =>
      intro s h
      exact ih (step s e) (inv_step s e h.1 h.2.1 h.2.2)
  refine main evs (initState vw vh) ⟨?_, ?_, ?_⟩
  · intro m hm
    simp only [initState, List.map_cons, List.map_nil] at hm
    rcases List.mem_singleton.mp hm with rfl
    exact Nat.one_pos
  · simp [initState]
  · refine ⟨{ id := rootId, x := 0, y := 0, width := vw, height := vh }, ?_, rfl⟩
    simp [initState, List.find?_cons]

/-- C4 amended: closing a window that occupies a cell merges that cell; the
window re-homed afterwards is the occupant of the first cell in arena order
that holds a window other than the closed one (not necessarily the merge
survivor), and that occupant gets the cell rectangle with its snapped flag
and its parent reference cleared; the closed window is removed
unconditionally; closing a window that occupies no cell leaves the arena
untouched. -/
theorem C4_amended_close_window (s : State) (id : Nat) :
    (s.gridCells.find? (fun c => c.windowId == some id) = none →
      (closeWindow s id).gridCells = s.gridCells ∧
      (closeWindow s id).windows = s.windows.filter (fun w => !(w.id == id))) ∧
    (∀ cell, s.gridCells.find? (fun c => c.windowId == some id) = some cell →
      (closeWindow s id).gridCells = mergeGridCells s.gridCells cell.id ∧
      (∀ w ∈ (closeWindow s id).windows, ¬ w.id = id) ∧
      (∀ rc, (mergeGridCells s.gridCells cell.id).find?
          (fun c => c.windowId.isSome && !(c.windowId == some id)) = some rc →
        ∀ w ∈ s.windows, some w.id = rc.windowId → ¬ w.id = id →
          { w with
            position := (rc.x, rc.y), size := (rc.width, rc.height),
            snapped := none, parentId := none } ∈ (closeWindow s id).windows) ∧
      ((mergeGridCells s.gridCells cell.id).find?
          (fun c => c.windowId.isSome && !(c.windowId == some id)) = none →
        (closeWindow s id).windows = s.windows.filter (fun w => !(w.id == id)))) := by
  constructor
  · intro h
    simp [closeWindow, h]
  · intro cell h
    refine ⟨by simp [closeWindow, h], ?_, ?_, ?_⟩
    · intro w hw
      simp only [closeWindow] at hw
      rw [List.mem_filter] at hw
      simpa using hw.2
    · intro rc hrc w hw hwid hwne
      have hup : (fun w : WindowData => if some w.id == rc.windowId then
          { w with
            position := (rc.x, rc.y), size := (rc.width, rc.height),
            snapped := none, parentId := none } else w) w =
          { w with
            position := (rc.x, rc.y), size := (rc.width, rc.height),
            snapped := none, parentId := none } := if_pos (by simp [← hwid])
      simp only [closeWindow, h, rehomeWindows, hrc]
      rw [List.mem_filter]
      refine ⟨?_, by simpa using hwne⟩
      rw [← hup]
      exact List.mem_map_of_mem _ hw
    · intro hrc
      simp [closeWindow, h, rehomeWindows, hrc]

unseal Rat.add Rat.sub Rat.mul Rat.inv in
/-- Witness for C4 amended: closing window 20 in S4 merges its leaf (cell 3)
and re-homes window 10, the occupant of the first occupied cell. -/
theorem C4_amended_close_window_witness :
    (closeWindow S4 20).gridCells = mergeGridCells S4.gridCells 3 ∧
    ({ id := 10, color := 0, position := (0, 0), size := (500, 800),
       snapped := none, parentId := none } : WindowData) ∈ (closeWindow S4 20).windows := by
  have h := (C4_amended_close_window S4 20).2
    { id := 3, x := 500, y := 0, width := 500, height := 400, windowId := some 20,
      parentId := some 2 }
    (by decide)
  refine ⟨h.1, ?_⟩
  exact h.2.2.1
    { id := 1, x := 0, y := 0, width := 500, height := 800, windowId := some 10,
      parentId := some 0 }
    (by decide)
    { id := 10, color := 0, position := (0, 0), size := (500, 800),
      snapped := some .left, parentId := some 0 }
    (by decide) rfl (by decide)

/-- C9 amended: the root region exists in every reachable state with no
parent reference, so no operation removes it; merge preserves the root
rectangle whenever every child of the root lies inside the root rectangle
(after an unpropagated resize a merge may instead enlarge it to the
envelope of the stale children, as the counterexample shows). -/
theorem C9_amended_root_region :
    (∀ (vw vh : ℚ) (evs : List Event),
      ∃ root, (runEvents vw vh evs).gridCells.find? (fun c => c.id == rootId) = some root ∧
        root.parentId = none) ∧
    (∀ (cells : List GridCell) (cellId : Nat) (root : GridCell),
      (cells.map (fun c => c.id)).Nodup →
      cells.find? (fun c => c.id == rootId) = some root →
      root.parentId = none →
      (∀ c ∈ cells, c.parentId = some rootId →
        root.x ≤ c.x ∧ root.y ≤ c.y ∧ c.x + c.width ≤ root.x + root.width ∧
        c.y + c.height ≤ root.y + root.height) →
      ∃ root2, (mergeGridCells cells cellId).find? (fun c => c.id == rootId) = some root2 ∧
        root2.x = root.x ∧ root2.y = root.y ∧ root2.width = root.width ∧
        root2.height = root.height) := by
  constructor
  · intro vw vh evs
    exact (inv_run vw vh evs).2.2
  · intro cells cellId root h2 h3 hrp hcont
    obtain ⟨root2, hfind2, _, hrect⟩ := mergeGridCells_root_facts cells cellId root h2 h3 hrp
    obtain ⟨hx, hy, hw, hh⟩ := hrect hcont
    exact ⟨root2, hfind2, hx, hy, hw, hh⟩

unseal Rat.add Rat.sub Rat.mul Rat.inv in
/-- Witness for C9 amended: the root exists after the dupEvents run, and the
merge of cell 1 in the well-nested arena of S6 keeps the root rectangle. -/
theorem C9_amended_root_region_witness :
    (∃ root, (runEvents 1000 800 dupEvents).gridCells.find?
        (fun c => c.id == rootId) = some root ∧ root.parentId = none) ∧
    (∃ root2, (mergeGridCells S6.gridCells 1).find? (fun c => c.id == rootId) = some root2 ∧
      root2.x = 0 ∧ root2.y = 0 ∧ root2.width = 1000 ∧ root2.height = 800) := by
  constructor
  · exact C9_amended_root_region.1 1000 800 dupEvents
  · obtain ⟨r2, hr2, hx, hy, hw, hh⟩ := C9_amended_root_region.2 S6.gridCells 1
      { id := 0, x := 0, y := 0, width := 1000, height := 800, children := some [1, 2] }
      (by decide) (by decide) rfl (by decide)
    exact ⟨r2, hr2, hx.trans rfl, hy.trans rfl, hw.trans rfl, hh.trans rfl⟩

unseal Rat.add Rat.sub Rat.mul Rat.inv in
/-- C1: the claim states that in every state reachable from the initial
single-root tree by split and merge operations as committed by drags, leaf
occupant window ids are pairwise distinct.  The code violates this: after
the reachable event sequence dupEvents, window 1 is the occupant of two
distinct leaves, because splitGridCell copies the existing occupant of the
split cell into one child while writing the dragged window into the other,
and here the dragged window already was that occupant. -/
theorem C1_duplicate_leaf_occupants :
    ¬ (leafOccupantIds (runEvents 1000 800 dupEvents).gridCells).Nodup ∧
    ((runEvents 1000 800 dupEvents).gridCells.filter
      (fun c => isLeafCell c && c.windowId == some 1)).length = 2 := by
  decide

unseal Rat.add Rat.sub Rat.mul Rat.inv in
/-- C10: both screen edge snap tests (the indicator tests of onDrag and the
commit test of onDragEnd) compare the candidate position against the fixed
default size constants 300 by 200 and not against the actual window size;
for a window of size 600 by 400 at candidate position (400, 100) on a
1000 by 800 viewport the two tests disagree. -/
theorem C10_screen_edge_test_uses_default_size :
    (∀ nx ny vw vh : ℚ, isScreenEdgeSnapCandidate nx ny vw vh =
      sizedScreenEdgeSnapCandidate nx ny vw vh WINDOW_WIDTH WINDOW_HEIGHT) ∧
    (∀ (a : Bool) (nx ny vw vh : ℚ), screenEdgeIndicator a nx ny vw vh =
      sizedScreenEdgeIndicator a nx ny vw vh WINDOW_WIDTH WINDOW_HEIGHT) ∧
    isScreenEdgeSnapCandidate 400 100 1000 800 = false ∧
    sizedScreenEdgeSnapCandidate 400 100 1000 800 600 400 = true ∧
    screenEdgeIndicator true 400 100 1000 800 = none ∧
    sizedScreenEdgeIndicator true 400 100 1000 800 600 400 = some SnapPosition.right := by
  refine ⟨fun nx ny vw vh => rfl, fun a nx ny vw vh => rfl, ?_, ?_, ?_, ?_⟩ <;> decide

unseal Rat.add Rat.sub Rat.mul Rat.inv in
/-- C4 counterexample: the claim states that on closing a docked window only
the surviving sibling occupant (if any) is re-homed and every other window
is untouched apart from the closed one being removed.  In S4 window 20 is
closed; the sibling of its leaf (cell 4) is empty, so the claim predicts no
re-homing at all, but the code re-homes window 10 (the occupant of the first
occupied cell in arena order), clearing its snapped flag and its parent
reference. -/
theorem C4_counterexample :
    ((closeWindow S4 20).windows.find? (fun w => w.id == 10)).map
      (fun w => (w.snapped, w.parentId)) = some (none, none) ∧
    (S4.windows.find? (fun w => w.id == 10)).map
      (fun w => (w.snapped, w.parentId)) = some (some SnapPosition.left, some 0) ∧
    (S4.gridCells.find? (fun c => c.id == 4)).map (fun c => c.windowId) = some none := by
  decide

unseal Rat.add Rat.sub Rat.mul Rat.inv in
/-- C5 counterexample: the claim states that during a drag the candidate
position of a non-docked window is clamped into the full viewport.  In S5
the dragged window is free and occupies no cell, and the committed position
(-50, -60) lies outside the 1000 by 800 viewport: no clamping happens. -/
theorem C5_counterexample :
    ((onDrag S5 (-50) (-60)).windows.find? (fun w => w.id == 1)).map
      (fun w => w.position) = some (-50, -60) ∧
    ((-50 : ℚ) < 0) := by
  decide

unseal Rat.add Rat.sub Rat.mul Rat.inv in
/-- C6 counterexample: the claim states that a pointer-move updates only the
displayed position and leaves the dock state (snapped flag and dock
reference) unchanged.  In S6 the dragged window has snapped = left before
the move and snapped = none after it: onDrag resets the snapped flag. -/
theorem C6_counterexample :
    ((onDrag S6 100 100).windows.find? (fun w => w.id == 1)).map
      (fun w => w.snapped) = some none ∧
    (S6.windows.find? (fun w => w.id == 1)).map
      (fun w => w.snapped) = some (some SnapPosition.left) := by
  decide

unseal Rat.add Rat.sub Rat.mul Rat.inv in
/-- C8 counterexample: the claim states that split is a no-op whenever the
given id does not name an existing leaf, in particular when the cell is
internal.  Cell 0 of cells8 is internal (children 1 and 2), yet the split
goes ahead and changes the arena. -/
theorem C8_counterexample :
    splitGridCell cells8 3 0 SnapPosition.left 9 ≠ (cells8, 3) := by
  decide

unseal Rat.add Rat.sub Rat.mul Rat.inv in
/-- C9 counterexample: the claim states that the root rectangle is changed
only by the viewport-resize handler and in particular never by merge.  After
the reachable sequence events9 minus its final close event, the resize has
set the root rectangle to 400 by 300; the final close event merges a root
child and rewrites the root rectangle to 500 by 800, the envelope of the
stale children. -/
theorem C9_counterexample :
    ((runEvents 1000 800 events9).gridCells.find? (fun c => c.id == rootId)).map
      (fun c => (c.width, c.height)) = some (500, 800) ∧
    ((runEvents 1000 800 events9.dropLast).gridCells.find? (fun c => c.id == rootId)).map
      (fun c => (c.width, c.height)) = some (400, 300) := by
  decide

end WindowTiler
